import Mathlib

/-!
Verification development for the pawscribed-app note-production pipeline.

The Python sources are shallowly embedded: strings are lists of characters,
SQLAlchemy sessions are explicit record states with commit points made
explicit, exceptions are `Option`/`Except` results, and the external
collaborators (generative backend, speech backend, template registry) are
injected outcomes.  Floating point arithmetic is modelled with rationals.
-/

namespace Pawscribed

/-- Characters stripped by the Python `str.strip()` default. -/
def isPySpace (c : Char) : Bool :=
  c = ' ' || c = '\t' || c = '\n' || c = '\x0d' || c = '\x0b' || c = '\x0c'

/-- Python `str.strip()` on a character list. -/
def pyStrip (s : List Char) : List Char :=
  ((s.dropWhile isPySpace).reverse.dropWhile isPySpace).reverse

/-- Python `str.lower()`; the sources only lower ASCII text (the degree sign
is unchanged by both Python and Lean lowering). -/
def lowerStr (s : List Char) : List Char :=
  s.map Char.toLower

/-- Python substring test `needle in hay`. -/
def containsSub (hay needle : List Char) : Bool :=
  match hay with
  | [] => needle.isEmpty
  | _ :: t => needle.isPrefixOf hay || containsSub t needle

/-- Python `str.split` on a single newline character: every separator splits,
empty pieces are kept. -/
def splitOnNl : List Char → List (List Char)
  | [] => [[]]
  | c :: t =>
    if c = '\n' then [] :: splitOnNl t
    else
      match splitOnNl t with
      | [] => [[c]]
      | l :: ls => (c :: l) :: ls

/-- Exact numeric values (Python floats are modelled exactly, as fractions).
The representation is left unnormalized so that every operation reduces
inside the kernel; every constructor and operation below keeps the
denominator positive.  `Frac.toRat` is the value. -/
structure Frac where
  num : Int
  den : Int
deriving DecidableEq, Repr

/-- The rational value of a fraction. -/
def Frac.toRat (a : Frac) : ℚ := (a.num : ℚ) / (a.den : ℚ)

/-- Embed a natural number. -/
def Frac.ofNat (n : Nat) : Frac := ⟨n, 1⟩

/-- Embed an integer. -/
def Frac.ofInt (n : Int) : Frac := ⟨n, 1⟩

/-- Addition. -/
def Frac.add (a b : Frac) : Frac := ⟨a.num * b.den + b.num * a.den, a.den * b.den⟩

/-- Multiplication. -/
def Frac.mul (a b : Frac) : Frac := ⟨a.num * b.num, a.den * b.den⟩

/-- Division; the divisors appearing in this development are positive
constant fractions, and the sign case keeps the denominator positive in
general (a zero divisor never occurs in any reachable call). -/
def Frac.div (a b : Frac) : Frac :=
  if 0 ≤ b.num then ⟨a.num * b.den, a.den * b.num⟩
  else ⟨-(a.num * b.den), a.den * -b.num⟩

/-- Strict comparison (denominators positive). -/
def Frac.blt (a b : Frac) : Bool := decide (a.num * b.den < b.num * a.den)

/-- Non-strict comparison (denominators positive). -/
def Frac.ble (a b : Frac) : Bool := decide (a.num * b.den ≤ b.num * a.den)

/-- Python `min` on two numbers. -/
def Frac.fmin (a b : Frac) : Frac := if Frac.ble a b then a else b

/-- A positive power of ten. -/
def Frac.pow10 (k : Nat) : Frac := ⟨(10 : Int) ^ k, 1⟩

/-- Zero test (the value, not the representation). -/
def Frac.isZero (a : Frac) : Bool := a.num == 0

/-- `models.TranscriptionStatus`. -/
inductive TStatus where
  | pending
  | processing
  | completed
  | failed
deriving DecidableEq, Repr

/-- `models.TranscriptionJob` row; timestamps are integer seconds, nullable
columns are options. -/
structure TJobRow where
  id : Nat
  status : TStatus
  transcript : Option (List Char) := none
  confidence_score : Option Frac := none
  error_message : Option (List Char) := none
  started_at : Option Int := none
  completed_at : Option Int := none
  created_at : Int := 0
  audio_file_id : Option Nat := none
deriving DecidableEq, Repr

/-- Thirty days in seconds, the value of `timedelta(days=30)` used at
`background_tasks.py:124`. -/
def thirtyDays : Int := 30 * 86400

/-- The selection predicate of the job-cleanup query at
`background_tasks.py:126-129`: `completed_at < cutoff` (SQL comparison with a
NULL `completed_at` selects nothing) and status in (COMPLETED, FAILED). -/
def jobSweepSelected (now : Int) (j : TJobRow) : Bool :=
  (match j.completed_at with
   | some t => decide (t < now - thirtyDays)
   | none => false)
  && (decide (j.status = TStatus.completed) || decide (j.status = TStatus.failed))

/-- The TranscriptionJob part of `BackgroundTaskManager._cleanup_old_files`
(`background_tasks.py:123-136`): every selected row is deleted, the rest
survive.  Returns the surviving rows. -/
def cleanup_old_jobs (now : Int) (jobs : List TJobRow) : List TJobRow :=
  jobs.filter (fun j => ! jobSweepSelected now j)

/-! ### A small backtracking regex engine

Covers exactly the constructs used by the vitals patterns in
`_extract_vitals_from_text` (`soap_generation_service.py:339-408`): literals,
character classes, greedy star/plus, optional and alternation with
left-priority, and a single capture group.  Matching order (leftmost search
position, greedy quantifiers with backtracking, left alternative first)
follows the Python `re` module. -/

inductive RE where
  | eps
  | pred (p : Char → Bool)
  | seq (a b : RE)
  | alt (a b : RE)
  | star (a : RE)
  | grp (a : RE)

/-- Backtracking matcher in continuation style.  `cap` carries the text of
capture group 1 once it has matched; the continuation receives the remaining
input and the capture.  Fuel only bounds the recursion depth; `reFuel` below
is large enough for every pattern/input pair in this file, and none of the
source patterns has a nullable star body. -/
def reRun {σ : Type} : Nat → RE → List Char → Option (List Char) →
    (List Char → Option (List Char) → Option σ) → Option σ
  | 0, _, _, _, _ => none
  | _ + 1, .eps, s, cap, k => k s cap
  | _ + 1, .pred p, s, cap, k =>
    match s with
    | [] => none
    | c :: t => if p c then k t cap else none
  | f + 1, .seq a b, s, cap, k =>
    reRun f a s cap (fun s1 c1 => reRun f b s1 c1 k)
  | f + 1, .alt a b, s, cap, k =>
    match reRun f a s cap k with
    | some v => some v
    | none => reRun f b s cap k
  | f + 1, .grp a, s, cap, k =>
    reRun f a s cap (fun s1 _ => k s1 (some (s.take (s.length - s1.length))))
  | f + 1, .star a, s, cap, k =>
    match reRun f a s cap
        (fun s1 c1 =>
          if s1.length < s.length then reRun f (.star a) s1 c1 k else none) with
    | some v => some v
    | none => k s cap

/-- Structural size of a pattern, for the fuel bound. -/
def reSize : RE → Nat
  | .eps => 1
  | .pred _ => 1
  | .seq a b => reSize a + reSize b + 1
  | .alt a b => reSize a + reSize b + 1
  | .star a => reSize a + 1
  | .grp a => reSize a + 1

/-- Fuel ample for matching `r` against `s`: every star iteration consumes at
least one character, so the call depth is below `size * (length + 2)`. -/
def reFuel (r : RE) (s : List Char) : Nat :=
  (reSize r + 2) * (s.length + 2)

/-- Attempt a match anchored at the start of `s`; returns the capture. -/
def reTry (r : RE) (s : List Char) : Option (Option (List Char)) :=
  reRun (reFuel r s) r s none (fun _ cap => some cap)

/-- `re.search`: leftmost successful start position wins. -/
def reSearch (r : RE) : List Char → Option (Option (List Char))
  | [] => reTry r []
  | c :: t =>
    match reTry r (c :: t) with
    | some v => some v
    | none => reSearch r t

/-- A sequence of literal characters. -/
def reLit (cs : List Char) : RE :=
  cs.foldr (fun c acc => .seq (.pred (fun x => x = c)) acc) .eps

/-- One-or-more, greedy. -/
def rePlus (r : RE) : RE := .seq r (.star r)

/-- Zero-or-one, greedy (the present branch is tried first). -/
def reOpt (r : RE) : RE := .alt r .eps

/-- Class `[^\d]`. -/
def reNonDigit : RE := .pred (fun c => !c.isDigit)

/-- Class `[0-9]` (equivalently `\d` on the lowered ASCII inputs here). -/
def reDigit : RE := .pred Char.isDigit

/-- Class `[0-9.]`. -/
def reDigitDot : RE := .pred (fun c => c.isDigit || c = '.')

/-- Class `\s`. -/
def reWs : RE := .pred isPySpace

/-- Class for the degree sign or letter f. -/
def reDegF : RE := .pred (fun c => c = '°' || c = 'f')

/-- Helper: value of a digit list (Python `int` on a `[0-9]+` capture, which
cannot fail). -/
def digitsVal (ds : List Char) : Nat :=
  ds.foldl (fun a c => a * 10 + (c.toNat - 48)) 0

/-- Python `float` applied to a `[0-9.]+` capture: accepted when it has at
most one dot and at least one digit (so `float` raises ValueError on inputs
like a bare dot or `1..2`, which the source skips via `continue`). -/
def pyFloatDigits (s : List Char) : Option Frac :=
  if s.all (fun c => c.isDigit || c = '.') && s.count '.' ≤ 1 && s.any Char.isDigit then
    let ip := s.takeWhile (fun c => c ≠ '.')
    let rest := s.dropWhile (fun c => c ≠ '.')
    let fp := rest.drop 1
    some ((Frac.ofNat (digitsVal ip)).add
      ((Frac.ofNat (digitsVal fp)).div (Frac.pow10 fp.length)))
  else
    none

/-- First pattern whose search matches and whose captured group parses; a
match whose group fails to parse falls through to the next pattern (the
`except ValueError: continue` in the source). -/
def firstVital {α : Type} (parse : List Char → Option α) (text : List Char) :
    List RE → Option α
  | [] => none
  | p :: rest =>
    match reSearch p text with
    | none => firstVital parse text rest
    | some none => firstVital parse text rest
    | some (some g) =>
      match parse g with
      | some v => some v
      | none => firstVital parse text rest

/-- Pattern `temperature[^\d]*([0-9.]+)(?:\s*[°f])`. -/
def tempPat1 : RE :=
  .seq (reLit "temperature".data)
    (.seq (.star reNonDigit) (.seq (.grp (rePlus reDigitDot)) (.seq (.star reWs) reDegF)))

/-- Pattern `temp[^\d]*([0-9.]+)(?:\s*[°f])`. -/
def tempPat2 : RE :=
  .seq (reLit "temp".data)
    (.seq (.star reNonDigit) (.seq (.grp (rePlus reDigitDot)) (.seq (.star reWs) reDegF)))

/-- Pattern `([0-9.]+)\s*[°f]`. -/
def tempPat3 : RE :=
  .seq (.grp (rePlus reDigitDot)) (.seq (.star reWs) reDegF)

/-- Pattern `heart\s+rate[^\d]*([0-9]+)`. -/
def hrPat1 : RE :=
  .seq (reLit "heart".data)
    (.seq (rePlus reWs)
      (.seq (reLit "rate".data) (.seq (.star reNonDigit) (.grp (rePlus reDigit)))))

/-- Pattern `hr[^\d]*([0-9]+)`. -/
def hrPat2 : RE :=
  .seq (reLit "hr".data) (.seq (.star reNonDigit) (.grp (rePlus reDigit)))

/-- Pattern `pulse[^\d]*([0-9]+)`. -/
def hrPat3 : RE :=
  .seq (reLit "pulse".data) (.seq (.star reNonDigit) (.grp (rePlus reDigit)))

/-- Pattern `respiratory\s+rate[^\d]*([0-9]+)`. -/
def rrPat1 : RE :=
  .seq (reLit "respiratory".data)
    (.seq (rePlus reWs)
      (.seq (reLit "rate".data) (.seq (.star reNonDigit) (.grp (rePlus reDigit)))))

/-- Pattern `respiration[^\d]*([0-9]+)`. -/
def rrPat2 : RE :=
  .seq (reLit "respiration".data) (.seq (.star reNonDigit) (.grp (rePlus reDigit)))

/-- Pattern `rr[^\d]*([0-9]+)`. -/
def rrPat3 : RE :=
  .seq (reLit "rr".data) (.seq (.star reNonDigit) (.grp (rePlus reDigit)))

/-- Pattern `breathing[^\d]*([0-9]+)`. -/
def rrPat4 : RE :=
  .seq (reLit "breathing".data) (.seq (.star reNonDigit) (.grp (rePlus reDigit)))

/-- The tail `(?:\s*(?:lbs?|pounds?))?` of the weight patterns. -/
def weightUnitTail : RE :=
  reOpt (.seq (.star reWs)
    (.alt (.seq (reLit "lb".data) (reOpt (.pred (fun c => c = 's'))))
      (.seq (reLit "pound".data) (reOpt (.pred (fun c => c = 's'))))))

/-- Pattern `weight[^\d]*([0-9.]+)(?:\s*(?:lbs?|pounds?))?`. -/
def weightPat1 : RE :=
  .seq (reLit "weight".data)
    (.seq (.star reNonDigit) (.seq (.grp (rePlus reDigitDot)) weightUnitTail))

/-- Pattern `weighs[^\d]*([0-9.]+)(?:\s*(?:lbs?|pounds?))?`. -/
def weightPat2 : RE :=
  .seq (reLit "weighs".data)
    (.seq (.star reNonDigit) (.seq (.grp (rePlus reDigitDot)) weightUnitTail))

/-- Pattern `([0-9.]+)\s*(?:lbs?|pounds?)`. -/
def weightPat3 : RE :=
  .seq (.grp (rePlus reDigitDot))
    (.seq (.star reWs)
      (.alt (.seq (reLit "lb".data) (reOpt (.pred (fun c => c = 's'))))
        (.seq (reLit "pound".data) (reOpt (.pred (fun c => c = 's'))))))

/-- The vitals mapping built by `_extract_vitals_from_text`; a field is
`none` when no pattern produced a parsable match (the key is absent from the
Python dict). -/
structure VitalsD where
  temperature : Option Frac := none
  heart_rate : Option Nat := none
  respiratory_rate : Option Nat := none
  weight : Option Frac := none
deriving DecidableEq, Repr

/-- `SOAPGenerationService._extract_vitals_from_text`
(`soap_generation_service.py:339-408`): each vital is scanned independently
over the lowered text with an ordered pattern list. -/
def extract_vitals_from_text (text : List Char) : VitalsD :=
  let t := lowerStr text
  { temperature := firstVital pyFloatDigits t [tempPat1, tempPat2, tempPat3]
    heart_rate := firstVital (fun g => some (digitsVal g)) t [hrPat1, hrPat2, hrPat3]
    respiratory_rate :=
      firstVital (fun g => some (digitsVal g)) t [rrPat1, rrPat2, rrPat3, rrPat4]
    weight := firstVital pyFloatDigits t [weightPat1, weightPat2, weightPat3] }

/-- Python truthiness of the vitals dict: nonempty iff some key present. -/
def VitalsD.nonempty (v : VitalsD) : Bool :=
  v.temperature.isSome || v.heart_rate.isSome || v.respiratory_rate.isSome ||
    v.weight.isSome

/-! ### The fallback text path of the transcript parsing
(`_parse_structured_text_response`, `soap_generation_service.py:267-337`).
The second parameter `template` of the source function is unused in its body
and therefore omitted from the embedding. -/

/-- The `section_patterns` dict, in insertion order. -/
def sectionPatterns : List (List Char × List (List Char)) :=
  [("subjective".data,
      ["SUBJECTIVE".data, "S:".data, "History".data, "Chief Complaint".data]),
   ("objective".data,
      ["OBJECTIVE".data, "O:".data, "Physical Exam".data, "Examination".data]),
   ("assessment".data,
      ["ASSESSMENT".data, "A:".data, "Diagnosis".data, "Assessment".data]),
   ("plan".data,
      ["PLAN".data, "P:".data, "Treatment".data, "Recommendations".data])]

/-- The header scan of `soap_generation_service.py:290-297`: the first section
type one of whose alias patterns occurs, case-insensitively, as a substring
anywhere in the line. -/
def headerType (line : List Char) : Option (List Char) :=
  (sectionPatterns.find?
      (fun st => st.2.any (fun p => containsSub (lowerStr line) (lowerStr p)))).map
    (fun st => st.1)

/-- Whether the stripped line is treated as a section header. -/
def isHeaderLine (line : List Char) : Bool :=
  (headerType line).isSome

/-- Python `str.title()`: a letter is uppercased after a non-letter and
lowercased otherwise. -/
def pyTitleGo : Bool → List Char → List Char
  | _, [] => []
  | prevAlpha, c :: t =>
    (if prevAlpha then c.toLower else c.toUpper) :: pyTitleGo c.isAlpha t

/-- Python `str.title()`. -/
def pyTitle (s : List Char) : List Char :=
  pyTitleGo false s

/-- Python `"\n".join`. -/
def joinNl : List (List Char) → List Char
  | [] => []
  | [l] => l
  | l :: ls => l ++ '\n' :: joinNl ls

/-- One parsed section dict (`type`, `title`, `content`, `order`, and the
`vitals` key only when set). -/
structure SectionD where
  stype : List Char
  title : List Char
  content : List Char
  order : Nat
  vitals : Option VitalsD := none
deriving DecidableEq, Repr

/-- The dict returned by the fallback text path. -/
structure SoapData where
  sections : List SectionD
  summary : List Char
  completeness_score : Frac
deriving DecidableEq, Repr

/-- Closing a section (`soap_generation_service.py:300-307` and `317-324`):
appended only when a section is open and its accumulated content is
nonempty, with `order = len(sections) + 1`. -/
def flushSection (sections : List SectionD) (cur : Option (List Char))
    (content : List (List Char)) : List SectionD :=
  match cur with
  | none => sections
  | some st =>
    if content.isEmpty then sections
    else
      sections ++ [{ stype := st, title := pyTitle st,
                     content := pyStrip (joinNl content),
                     order := sections.length + 1 }]

/-- The line loop of `soap_generation_service.py:284-324`. -/
def parseLines : List (List Char) → List SectionD → Option (List Char) →
    List (List Char) → List SectionD
  | [], sections, cur, content => flushSection sections cur content
  | l :: rest, sections, cur, content =>
    if (pyStrip l).isEmpty then parseLines rest sections cur content
    else
      match headerType (pyStrip l) with
      | some st => parseLines rest (flushSection sections cur content) (some st) []
      | none =>
        match cur with
        | some _ => parseLines rest sections cur (content ++ [pyStrip l])
        | none => parseLines rest sections cur content

/-- The vitals pass of `soap_generation_service.py:326-331`: every objective
section gets a `vitals` key when extraction yields a nonempty dict. -/
def addVitals (s : SectionD) : SectionD :=
  if s.stype = "objective".data then
    let v := extract_vitals_from_text s.content
    if v.nonempty then { s with vitals := some v } else s
  else s

/-- `SOAPGenerationService._parse_structured_text_response`
(`soap_generation_service.py:267-337`). -/
def parse_structured_text_response (response : List Char) : SoapData :=
  let sections := (parseLines (splitOnNl response) [] none []).map addVitals
  { sections := sections
    summary := "SOAP note generated from transcription".data
    completeness_score := (Frac.ofNat sections.length).div (Frac.ofNat 4) }

/-! ### JSON values and the primary parse path
(`_parse_ai_soap_response`, `soap_generation_service.py:251-265`). -/

/-- Python values produced by `json.loads`; numbers as rationals, dicts as
key/value lists without duplicate keys (later duplicates replace earlier ones
in place, as in a Python dict). -/
inductive Json where
  | null
  | bool (b : Bool)
  | num (q : Frac)
  | str (s : List Char)
  | arr (xs : List Json)
  | obj (kvs : List (List Char × Json))
deriving Repr

/-- Dict insertion: replacing an existing key keeps its position. -/
def insertKV (kvs : List (List Char × Json)) (k : List Char) (v : Json) :
    List (List Char × Json) :=
  if kvs.any (fun kv => kv.1 = k) then
    kvs.map (fun kv => if kv.1 = k then (k, v) else kv)
  else
    kvs ++ [(k, v)]

/-- JSON insignificant whitespace. -/
def skipWs (s : List Char) : List Char :=
  s.dropWhile (fun c => c = ' ' || c = '\t' || c = '\n' || c = '\x0d')

/-- Common JSON escapes; the `\u` form is rejected (no input in this
development uses it). -/
def escChar : Char → Option Char
  | '"' => some '"'
  | '\\' => some '\\'
  | '/' => some '/'
  | 'b' => some '\x08'
  | 'f' => some '\x0c'
  | 'n' => some '\n'
  | 'r' => some '\x0d'
  | 't' => some '\t'
  | _ => none

/-- String body after the opening quote (continued). -/
def parseJStr : List Char → Option (List Char × List Char)
  | [] => none
  | '"' :: r => some ([], r)
  | '\\' :: e :: r =>
    (match escChar e with
     | none => none
     | some c =>
       match parseJStr r with
       | none => none
       | some p => some (c :: p.1, p.2))
  | c :: r =>
    if c.toNat < 32 || c = '\\' then none
    else
      match parseJStr r with
      | none => none
      | some p => some (c :: p.1, p.2)

/-- JSON number: optional sign, integer part without leading zeros, optional
fraction and exponent. -/
def parseJNum (s : List Char) : Option (Frac × List Char) :=
  let sgn : Frac := if s.head? = some '-' then Frac.ofInt (-1) else Frac.ofInt 1
  let s1 := if s.head? = some '-' then s.drop 1 else s
  let ds := s1.takeWhile Char.isDigit
  let r1 := s1.dropWhile Char.isDigit
  if ds.isEmpty then none
  else if ds.length > 1 && ds.head? = some '0' then none
  else
    let ip : Frac := Frac.ofNat (digitsVal ds)
    let fracStep : Option (Frac × List Char) :=
      match r1 with
      | '.' :: t =>
        let fs := t.takeWhile Char.isDigit
        if fs.isEmpty then none
        else
          some (ip.add ((Frac.ofNat (digitsVal fs)).div (Frac.pow10 fs.length)),
            t.dropWhile Char.isDigit)
      | _ => some (ip, r1)
    fracStep.bind (fun p =>
      match p.2 with
      | 'e' :: t | 'E' :: t =>
        let esgn : Bool := t.head? = some '-'
        let t1 := if t.head? = some '-' || t.head? = some '+' then t.drop 1 else t
        let es := t1.takeWhile Char.isDigit
        if es.isEmpty then none
        else
          let mag : Frac := Frac.pow10 (digitsVal es)
          some ((sgn.mul p.1).mul
              (if esgn then (Frac.ofInt 1).div mag else mag),
            t1.dropWhile Char.isDigit)
      | _ => some (sgn.mul p.1, p.2))

/-- Parsing mode: a top-level value, or the element/member loop of a
partially read array or object. -/
inductive JMode where
  | val
  | arrItems (acc : List Json)
  | objItems (acc : List (List Char × Json))

/-- Fueled recursive-descent JSON reader. -/
def jsonP : Nat → JMode → List Char → Option (Json × List Char)
  | 0, _, _ => none
  | f + 1, .val, s0 =>
    match skipWs s0 with
    | [] => none
    | '\x7b' :: t =>
      (match skipWs t with
       | '\x7d' :: r => some (.obj [], r)
       | _ => jsonP f (.objItems []) t)
    | '[' :: t =>
      (match skipWs t with
       | ']' :: r => some (.arr [], r)
       | _ => jsonP f (.arrItems []) t)
    | '"' :: t => (parseJStr t).map (fun p => (.str p.1, p.2))
    | 't' :: 'r' :: 'u' :: 'e' :: r => some (.bool true, r)
    | 'f' :: 'a' :: 'l' :: 's' :: 'e' :: r => some (.bool false, r)
    | 'n' :: 'u' :: 'l' :: 'l' :: r => some (.null, r)
    | s => (parseJNum s).map (fun p => (.num p.1, p.2))
  | f + 1, .arrItems acc, s =>
    match jsonP f .val s with
    | none => none
    | some (v, r) =>
      match skipWs r with
      | ',' :: r2 => jsonP f (.arrItems (acc ++ [v])) r2
      | ']' :: r2 => some (.arr (acc ++ [v]), r2)
      | _ => none
  | f + 1, .objItems acc, s =>
    match skipWs s with
    | '"' :: t =>
      match parseJStr t with
      | none => none
      | some (k, r) =>
        match skipWs r with
        | ':' :: r2 =>
          match jsonP f .val r2 with
          | none => none
          | some (v, r3) =>
            match skipWs r3 with
            | ',' :: r4 => jsonP f (.objItems (insertKV acc k v)) r4
            | '\x7d' :: r4 => some (.obj (insertKV acc k v), r4)
            | _ => none
        | _ => none
    | _ => none

/-- `json.loads`: one complete value, nothing but whitespace after it. -/
def jsonLoads (s : List Char) : Option Json :=
  match jsonP (2 * s.length + 8) .val s with
  | some (v, r) => if (skipWs r).isEmpty then some v else none
  | none => none

/-- The match of `re.search` with the dot-all pattern of one opening brace,
a greedy gap and one closing brace (`soap_generation_service.py:255`): the
text from the first opening brace to the last closing brace, provided the
latter comes after the former. -/
def extractJsonSub (s : List Char) : Option (List Char) :=
  match s.findIdx? (fun c => c = '\x7b'), (s.reverse.findIdx? (fun c => c = '\x7d')) with
  | some i, some jr =>
    let j := s.length - 1 - jr
    if i < j then some ((s.drop i).take (j - i + 1)) else none
  | _, _ => none

/-- Vitals dict encoded as JSON, keys in the insertion order of
`_extract_vitals_from_text`. -/
def vitalsToJson (v : VitalsD) : Json :=
  .obj
    ((match v.temperature with
      | some q => [("temperature".data, Json.num q)]
      | none => []) ++
     (match v.heart_rate with
      | some n => [("heart_rate".data, Json.num (Frac.ofNat n))]
      | none => []) ++
     (match v.respiratory_rate with
      | some n => [("respiratory_rate".data, Json.num (Frac.ofNat n))]
      | none => []) ++
     (match v.weight with
      | some q => [("weight".data, Json.num q)]
      | none => []))

/-- One fallback section dict as JSON. -/
def sectionToJson (s : SectionD) : Json :=
  .obj
    ([("type".data, .str s.stype), ("title".data, .str s.title),
      ("content".data, .str s.content),
      ("order".data, .num (Frac.ofNat s.order))] ++
     (match s.vitals with
      | some v => [("vitals".data, vitalsToJson v)]
      | none => []))

/-- The fallback dict as JSON. -/
def soapDataToJson (d : SoapData) : Json :=
  .obj
    [("sections".data, .arr (d.sections.map sectionToJson)),
     ("summary".data, .str d.summary),
     ("completeness_score".data, .num d.completeness_score)]

/-- `SOAPGenerationService._parse_ai_soap_response`
(`soap_generation_service.py:251-265`): when the brace-delimited substring
exists and decodes, the decoded object is returned verbatim; a decode error
or the absence of a match falls back to the text path.  The unused
`template` parameter of the source is omitted. -/
def parse_ai_soap_response (aiResponse : List Char) : Json :=
  match extractJsonSub aiResponse with
  | some m =>
    match jsonLoads m with
    | some j => j
    | none => soapDataToJson (parse_structured_text_response aiResponse)
  | none => soapDataToJson (parse_structured_text_response aiResponse)

/-! ### Python-level accessors used by the validator and the assembler. -/

/-- Python list comprehension over fallible element steps: elements in
order, the first exception aborts the whole expression. -/
def optionMapList {α β : Type} (f : α → Option β) : List α → Option (List β)
  | [] => some []
  | a :: l =>
    match f a with
    | none => none
    | some b =>
      match optionMapList f l with
      | none => none
      | some bs => some (b :: bs)

/-- Dict lookup (`d.get(k)` on a dict); `none` on a non-dict or absent key. -/
def jget (j : Json) (k : List Char) : Option Json :=
  match j with
  | .obj kvs => (kvs.find? (fun kv => kv.1 = k)).map (fun kv => kv.2)
  | _ => none

/-- Python iteration over a value: lists yield elements, strings yield
one-character strings, dicts yield their keys; other values raise. -/
def pyIter : Json → Option (List Json)
  | .arr xs => some xs
  | .str s => some (s.map (fun c => .str [c]))
  | .obj kvs => some (kvs.map (fun kv => .str kv.1))
  | _ => none

/-- Python truthiness. -/
def pyFalsy : Json → Bool
  | .null => true
  | .bool b => !b
  | .num q => q.isZero
  | .str s => s.isEmpty
  | .arr xs => xs.isEmpty
  | .obj kvs => kvs.isEmpty

/-- Python equality of a string literal against an arbitrary value: `==`
between a str and a non-str is false. -/
def jStrEq (r : List Char) (j : Json) : Bool :=
  match j with
  | .str s => decide (s = r)
  | _ => false

/-! ### The validator
(`_validate_soap_content`, `soap_generation_service.py:410-454`).  The second
`context` parameter of the source is unused in its body and omitted.  A
`none` result models an exception escaping the function (caught by the
caller in `_generate_soap_with_ai`, turning the whole generation into a
failure before any row is written). -/

/-- The validator output.  `quality_issues` records the `type` value of each
flagged section; the source embeds that value in the sentence `Limited
information in ... section`. -/
structure Validation where
  completeness_score : Frac
  missing_sections : List (List Char)
  quality_issues : List Json
  suggestions : List (List Char)
deriving Repr

/-- `required_sections` of the source. -/
def requiredSections : List (List Char) :=
  ["subjective".data, "objective".data, "assessment".data, "plan".data]

/-- The content of one section for the quality loop: `s.get("content", "")`
must be a string or the loop raises (`len` or `.lower()` fails on the
non-string values reachable here). -/
def sectionContent (s : Json) : Option (List Char) :=
  match (jget s "content".data).getD (.str []) with
  | .str c => some c
  | _ => none

/-- Placeholder marker test of `soap_generation_service.py:437`. -/
def hasPlaceholder (content : List Char) : Bool :=
  containsSub (lowerStr content) "not enough data".data ||
    containsSub (lowerStr content) "not mentioned".data

/-- `SOAPGenerationService._validate_soap_content`
(`soap_generation_service.py:410-454`). -/
def validate_soap_content (soap_data : Json) : Option Validation :=
  match soap_data with
  | .obj _ =>
    let sectionsRaw := (jget soap_data "sections".data).getD (.arr [])
    match pyIter sectionsRaw with
    | none => none
    | some items =>
      match optionMapList (fun s => jget s "type".data) items with
      | none => none
      | some found =>
        let missing := requiredSections.filter (fun r => ! found.any (jStrEq r))
        let section_score : Frac := (Frac.ofNat found.length).div (Frac.ofNat 4)
        match optionMapList sectionContent items with
        | none => none
        | some contents =>
          let total : Nat := (contents.map List.length).sum
          let quality :=
            ((items.zip contents).filter (fun p => hasPlaceholder p.2)).map
              (fun p => (jget p.1 "type".data).getD .null)
          let content_score : Frac :=
            (Frac.ofNat 1).fmin ((Frac.ofNat total).div (Frac.ofNat 500))
          let score := (section_score.add content_score).div (Frac.ofNat 2)
          let sugg1 : List (List Char) :=
            if (score.blt ⟨7, 10⟩) = true then
              ["Consider recording additional clinical information".data]
            else []
          let sugg2 : List (List Char) :=
            if found.any (jStrEq "objective".data) then
              match items.find?
                  (fun s => ((jget s "type".data).map (jStrEq "objective".data)).getD false) with
              | some objSec =>
                if (match jget objSec "vitals".data with
                    | none => true
                    | some v => pyFalsy v) then
                  ["Include vital signs in the objective section".data]
                else []
              | none => []
            else []
          some { completeness_score := score, missing_sections := missing,
                 quality_issues := quality, suggestions := sugg1 ++ sugg2 }
  | _ => none

/-! ### The assembler
(`generate_soap_from_transcription`, `soap_generation_service.py:18-123`).

The database session is explicit: a `DB` value holds the committed rows and
each `db.commit()` of the source is a point where the staged rows become
part of the returned state.  Rows added to the session but not committed
before an exception are simply never observed (the source has no rollback
call; its `except` handler only returns an error dict).  The two external
collaborators are injected outcomes: the template lookup (the source calls
`template_service.get_template`, a method that does not exist on
`TemplateService` — only `get_template_structure` and `get_template_by_type`
do — so the live call raises AttributeError) and the generative backend
response consumed by the parse step. -/

/-- `models.Pet`; only the name flows into the persisted note (the other
fields feed the backend prompt, which is part of the injected outcome). -/
structure PetRow where
  id : Nat
  name : List Char
deriving DecidableEq, Repr

/-- `models.NoteStatus`. -/
inductive NStatus where
  | draft
  | processing
  | available_for_review
  | ready_to_export
  | exported
deriving DecidableEq, Repr

/-- `models.Note` row; `generated_content` holds the structured value whose
JSON serialization the source stores. -/
structure NoteRow where
  id : Nat
  user_id : Nat
  patient_id : Nat
  transcription_job_id : Nat
  title : List Char
  note_type : List Char
  status : NStatus
  original_transcript : Option (List Char)
  generated_content : Json
deriving Repr

/-- `models.SOAPSection` row; the loop stores the parsed values as given, so
the fields carry JSON values (database-level column type enforcement is not
modelled, and a present-but-null vitals entry is normalized to NULL exactly
as Python `dict.get` hands `None` to the column). -/
structure SectionRow where
  id : Nat
  note_id : Nat
  section_type : Json
  content : Json
  order_index : Json
  temperature : Option Json := none
  heart_rate : Option Json := none
  respiratory_rate : Option Json := none
  weight : Option Json := none
deriving Repr

/-- `models.AudioFile` row (the fields the queue processor reads). -/
structure AudioFileRow where
  id : Nat
  file_path : List Char
deriving DecidableEq, Repr

/-- The committed database state. -/
structure DB where
  jobs : List TJobRow := []
  pets : List PetRow := []
  notes : List NoteRow := []
  soap_sections : List SectionRow := []
  audio_files : List AudioFileRow := []
deriving Repr

/-- Outcome of the `template_service.get_template(template_type)` call at
`soap_generation_service.py:45`. -/
inductive TemplateOutcome where
  | found
  | notFound
  | attrError
deriving DecidableEq, Repr

/-- The outcome the live binding always produces: `TemplateService` has no
`get_template` attribute (`template_service.py` defines only
`get_template_structure` and `get_template_by_type`), so the call raises
AttributeError, which the handler at line 121 turns into an error return. -/
def liveTemplateOutcome : TemplateOutcome := .attrError

/-- Outcome of the awaited generative-backend call inside
`_generate_soap_with_ai`: the raw text handed to `_parse_ai_soap_response`,
or a failure dict passed through. -/
inductive AiOutcome where
  | ok (text : List Char)
  | fail (msg : List Char)
deriving DecidableEq, Repr

/-- Result of `generate_soap_from_transcription`: the success dict (note id,
count of sections created, confidence copied from the job) or the error
dict. -/
inductive GenResult where
  | ok (note_id : Nat) (sections_created : Nat) (confidence_score : Option Frac)
  | err (msg : List Char)
deriving Repr

/-- A present-but-null JSON value reaches the column as NULL. -/
def vitalCol (vitals : Json) (k : List Char) : Option Json :=
  (jget vitals k).bind (fun v => match v with | .null => none | _ => some v)

/-- One iteration of the section loop (`soap_generation_service.py:90-103`):
subscripts `type`, `content` and `order` raise on a non-dict item or a
missing key, and `get("vitals", {}).get(...)` raises when the vitals value
is not a dict; `none` models such an exception. -/
def buildSectionRow (noteId : Nat) (item : Json) : Option SectionRow :=
  match jget item "type".data, jget item "content".data, jget item "order".data with
  | some ty, some co, some ord =>
    let vitals := (jget item "vitals".data).getD (.obj [])
    match vitals with
    | .obj _ =>
      some { id := 0, note_id := noteId, section_type := ty, content := co,
             order_index := ord,
             temperature := vitalCol vitals "temperature".data,
             heart_rate := vitalCol vitals "heart_rate".data,
             respiratory_rate := vitalCol vitals "respiratory_rate".data,
             weight := vitalCol vitals "weight".data }
    | _ => none
  | _, _, _ => none

/-- The whole section loop; on an exception no staged row survives (they
were added to the session but never committed). -/
def buildSectionRows (noteId : Nat) (items : List Json) : Option (List SectionRow) :=
  optionMapList (buildSectionRow noteId) items

/-- `SOAPGenerationService.generate_soap_from_transcription`
(`soap_generation_service.py:18-123`).  `today` is the formatted
`datetime.utcnow()` date used in the note title. -/
def generate_soap_from_transcription (tmpl : TemplateOutcome) (ai : AiOutcome)
    (transcription_job_id patient_id user_id : Nat)
    (template_type today : List Char) (db : DB) : GenResult × DB :=
  match db.jobs.find? (fun j => j.id = transcription_job_id) with
  | none => (.err "Transcription job not found".data, db)
  | some job =>
    if job.status ≠ TStatus.completed then
      (.err "Transcription not completed yet".data, db)
    else
      match db.pets.find? (fun p => p.id = patient_id) with
      | none => (.err "Patient not found".data, db)
      | some patient =>
        match tmpl with
        | .attrError =>
          (.err "AttributeError: TemplateService object has no attribute get_template".data,
           db)
        | .notFound =>
          (.err ("Template ".data ++ template_type ++ " not found".data), db)
        | .found =>
          match ai with
          | .fail msg => (.err msg, db)
          | .ok text =>
            let soap_data := parse_ai_soap_response text
            match validate_soap_content soap_data with
            | none => (.err "exception while validating generated content".data, db)
            | some _validation =>
              let noteId := db.notes.length + 1
              let note : NoteRow :=
                { id := noteId, user_id := user_id, patient_id := patient_id,
                  transcription_job_id := transcription_job_id,
                  title := "SOAP Note - ".data ++ patient.name ++ " - ".data ++ today,
                  note_type := template_type, status := .available_for_review,
                  original_transcript := job.transcript,
                  generated_content := soap_data }
              let db1 : DB := { db with notes := db.notes ++ [note] }
              match jget soap_data "sections".data with
              | none => (.err "KeyError: sections".data, db1)
              | some sectionsVal =>
                match pyIter sectionsVal with
                | none => (.err "TypeError: sections value is not iterable".data, db1)
                | some items =>
                  match buildSectionRows noteId items with
                  | none => (.err "exception while building section rows".data, db1)
                  | some rows =>
                    let rows :=
                      rows.enum.map
                        (fun p => { p.2 with id := db1.soap_sections.length + p.1 + 1 })
                    (.ok noteId rows.length job.confidence_score,
                     { db1 with soap_sections := db1.soap_sections ++ rows })

/-! ### The transcription queue
(`transcription_service.py:35-212`).  The speech backend and the file system
are injected: `fileExists` models `os.path.exists`, and a `SpeechOutcome`
collapses the awaited recognize call together with the aggregation of its
result list (`transcription_service.py:123-142`, untouched by any claim)
into the final transcript/confidence pair, an empty result list, or an
exception anywhere between the file read and the commit of results.
Externally visible steps are recorded as an event trace. -/

/-- Observable steps of one queue poll. -/
inductive Ev where
  | setStatus (jobId : Nat) (st : TStatus)
  | fileCheck (path : List Char)
  | fileRead (path : List Char)
  | backendCall (jobId : Nat)
deriving DecidableEq, Repr

/-- Injected outcome of the speech backend for one dispatched job. -/
inductive SpeechOutcome where
  | results (transcript : List Char) (confidence : Frac)
  | noResults
  | exn (msg : List Char)
deriving DecidableEq, Repr

/-- Result dict of `transcribe_audio`. -/
inductive TResult where
  | ok (transcript : List Char) (confidence : Frac)
  | err (msg : List Char)
deriving DecidableEq, Repr

/-- Point update of one job row. -/
def updateJob (db : DB) (jobId : Nat) (f : TJobRow → TJobRow) : DB :=
  { db with jobs := db.jobs.map (fun j => if j.id = jobId then f j else j) }

/-- `TranscriptionService.transcribe_audio` (`transcription_service.py:35-171`):
mark processing with `started_at` and commit, check and read the audio file,
call the backend, and commit the terminal state; every failure branch
(missing file, empty result, exception) commits status failed with
`error_message` and `completed_at`. -/
def transcribe_audio (fileExists : List Char → Bool) (backend : SpeechOutcome)
    (audio_file_path : List Char) (job_id : Nat) (now : Int) (db : DB) :
    TResult × DB × List Ev :=
  match db.jobs.find? (fun j => j.id = job_id) with
  | none => (.err "Transcription job not found".data, db, [])
  | some _ =>
    let db1 := updateJob db job_id
      (fun j => { j with status := .processing, started_at := some now })
    let evs1 := [Ev.setStatus job_id .processing, Ev.fileCheck audio_file_path]
    if ! fileExists audio_file_path then
      let msg := "Audio file not found: ".data ++ audio_file_path
      let db2 := updateJob db1 job_id
        (fun j => { j with status := .failed, error_message := some msg,
                           completed_at := some now })
      (.err msg, db2, evs1 ++ [Ev.setStatus job_id .failed])
    else
      let evs2 := evs1 ++ [Ev.fileRead audio_file_path, Ev.backendCall job_id]
      match backend with
      | .exn m =>
        let db2 := updateJob db1 job_id
          (fun j => { j with status := .failed, error_message := some m,
                             completed_at := some now })
        (.err m, db2, evs2 ++ [Ev.setStatus job_id .failed])
      | .noResults =>
        let msg := "No speech detected in audio file".data
        let db2 := updateJob db1 job_id
          (fun j => { j with status := .failed, error_message := some msg,
                             completed_at := some now })
        (.err msg, db2, evs2 ++ [Ev.setStatus job_id .failed])
      | .results t c =>
        let db2 := updateJob db1 job_id
          (fun j => { j with status := .completed, transcript := some t,
                             confidence_score := some c, completed_at := some now })
        (.ok t c, db2, evs2 ++ [Ev.setStatus job_id .completed])

/-- Stable insertion keeping earlier-inserted rows in front of equal keys. -/
def insertByCreated (j : TJobRow) : List TJobRow → List TJobRow
  | [] => [j]
  | x :: xs =>
    if x.created_at ≤ j.created_at then x :: insertByCreated j xs
    else j :: x :: xs

/-- `ORDER BY created_at ASC` as a stable sort. -/
def sortByCreated (jobs : List TJobRow) : List TJobRow :=
  jobs.foldl (fun acc j => insertByCreated j acc) []

/-- The batch selected by one poll
(`transcription_service.py:179-181`): pending jobs, creation order, limit 5. -/
def pendingBatch (db : DB) : List TJobRow :=
  (sortByCreated (db.jobs.filter (fun j => j.status = TStatus.pending))).take 5

/-- The audio row referenced by a job. -/
def audioOf (db : DB) (j : TJobRow) : Option AudioFileRow :=
  match j.audio_file_id with
  | some aid => db.audio_files.find? (fun a => a.id = aid)
  | none => none

/-- The task-creation loop of `transcription_service.py:190-204`: a job with
a present audio row and an existing file is collected for dispatch; any
other job is marked failed right there, directly from pending. -/
def queuePhase1 (fileExists : List Char → Bool) (now : Int) :
    List TJobRow → DB → DB × List (Nat × List Char) × List Ev
  | [], db => (db, [], [])
  | j :: rest, db =>
    match audioOf db j with
    | some af =>
      if fileExists af.file_path then
        let r := queuePhase1 fileExists now rest db
        (r.1, (j.id, af.file_path) :: r.2.1, Ev.fileCheck af.file_path :: r.2.2)
      else
        let r := queuePhase1 fileExists now rest (updateJob db j.id
          (fun x => { x with status := .failed,
                             error_message := some "Audio file not found".data,
                             completed_at := some now }))
        (r.1, r.2.1, Ev.fileCheck af.file_path :: Ev.setStatus j.id .failed :: r.2.2)
    | none =>
      let r := queuePhase1 fileExists now rest (updateJob db j.id
        (fun x => { x with status := .failed,
                           error_message := some "Audio file not found".data,
                           completed_at := some now }))
      (r.1, r.2.1, Ev.setStatus j.id .failed :: r.2.2)

/-- The gather step (`transcription_service.py:207-208`); the dispatched
coroutines are modelled sequentially, which fixes one interleaving of the
concurrent batch — every claim settled here is per-job. -/
def queuePhase2 (fileExists : List Char → Bool) (backendFor : Nat → SpeechOutcome)
    (now : Int) : List (Nat × List Char) → DB → DB × List Ev
  | [], db => (db, [])
  | (jid, path) :: rest, db =>
    let r := transcribe_audio fileExists (backendFor jid) path jid now db
    let r2 := queuePhase2 fileExists backendFor now rest r.2.1
    (r2.1, r.2.2 ++ r2.2)

/-- `TranscriptionService.process_transcription_queue`
(`transcription_service.py:173-212`). -/
def process_transcription_queue (fileExists : List Char → Bool)
    (backendFor : Nat → SpeechOutcome) (now : Int) (db : DB) : DB × List Ev :=
  let r1 := queuePhase1 fileExists now (pendingBatch db) db
  let r2 := queuePhase2 fileExists backendFor now r1.2.1 r1.1
  (r2.1, r1.2.2 ++ r2.2)

/-! ### Statement-level helpers and concrete instances. -/

/-- The three stages of the section loop between the two commits, bundled:
`none` exactly when the loop would raise after the Note commit. -/
def sectionRowsPlan (soap_data : Json) (noteId : Nat) : Option (List SectionRow) :=
  (jget soap_data "sections".data).bind
    (fun v => (pyIter v).bind (buildSectionRows noteId))

/-- Written from the words of the spec, for comparison with
`validate_soap_content`: the mean of the section score and the content
score. -/
def specCompleteness (found_count total_chars : Nat) : ℚ :=
  ((found_count : ℚ) / 4 + min 1 ((total_chars : ℚ) / 500)) / 2

/-- Properties of a content line accumulated by the fallback line loop:
not a header, nonempty, no embedded newline, no whitespace at either end. -/
def GoodLine (l : List Char) : Prop :=
  headerType l = none ∧ l ≠ [] ∧ '\n' ∉ l ∧
    (∀ c, l.head? = some c → isPySpace c = false) ∧
    (∀ c, l.getLast? = some c → isPySpace c = false)

/-- A completed job used by the concrete scenarios. -/
def exJobCompleted : TJobRow :=
  { id := 1, status := .completed, transcript := some "hello".data,
    confidence_score := some ⟨9, 10⟩ }

/-- A patient row used by the concrete scenarios. -/
def exPet : PetRow := { id := 2, name := "Rex".data }

/-- A database with one completed job and one patient. -/
def exDb : DB := { jobs := [exJobCompleted], pets := [exPet] }

/-- A database whose only job is still pending. -/
def exDbPending : DB := { jobs := [{ id := 1, status := .pending }], pets := [exPet] }

/-- A backend response whose extracted JSON decodes to an empty object. -/
def c1text : List Char := "\x7b\x7d".data

/-- A backend response with a decodable sections list whose two orders have
a gap (1 and 5). -/
def c4text : List Char :=
  ("\x7b\"sections\": [\x7b\"type\": \"subjective\", \"content\": \"a\", \"order\": 1\x7d, " ++
   "\x7b\"type\": \"plan\", \"content\": \"b\", \"order\": 5\x7d]\x7d").data

/-- The two section items decoded from `c4text`. -/
def c4items : List Json :=
  [.obj [("type".data, .str "subjective".data), ("content".data, .str "a".data),
         ("order".data, .num ⟨1, 1⟩)],
   .obj [("type".data, .str "plan".data), ("content".data, .str "b".data),
         ("order".data, .num ⟨5, 1⟩)]]

/-- A backend response with a decodable objective section whose content
carries an extractable temperature but no vitals field. -/
def c2text : List Char :=
  ("\x7b\"sections\": [\x7b\"type\": \"objective\", \"title\": \"Objective\", " ++
   "\"content\": \"temp 101.5f\", \"order\": 1\x7d]\x7d").data

/-- A decodable JSON object with neither sections nor a completeness score. -/
def c7text : List Char := "\x7b\"foo\": 1\x7d".data

/-- The objective section object decoded from `c2text`. -/
def c2section : Json :=
  .obj [("type".data, .str "objective".data), ("title".data, .str "Objective".data),
        ("content".data, .str "temp 101.5f".data), ("order".data, .num ⟨1, 1⟩)]

/-- What the primary path returns for `c2text`. -/
def c2json : Json := .obj [("sections".data, .arr [c2section])]

/-- The one section the fallback path builds from a two-line objective
snippet. -/
def c2fallbackSec : SectionD :=
  { stype := "objective".data, title := "Objective".data, content := "hr 99".data,
    order := 1, vitals := some { heart_rate := some 99 } }

/-- The canonical four-header transcript exactly as the claim quotes it:
every header carries its content on the same line. -/
def c3text : List Char :=
  "SUBJECTIVE: Owner reports lethargy.\nOBJECTIVE: temp 101.5F hr 120.\nASSESSMENT: Fever.\nPLAN: Fluids.".data

/-- The same four sections with each header alone on its line and the
content on the following line. -/
def c3textSplit : List Char :=
  ("SUBJECTIVE:\nOwner reports lethargy and reduced appetite since yesterday evening\n" ++
   "OBJECTIVE:\ntemp 101.5F hr 120\nASSESSMENT:\nFever of unknown origin\nPLAN:\nFluids and rest").data

/-- The database for the canonical-transcript scenario. -/
def exDbC3 : DB :=
  { jobs := [{ id := 1, status := .completed, transcript := some c3text,
               confidence_score := some ⟨9, 10⟩ }], pets := [exPet] }

/-- A parsed payload with five sections of one hundred characters each. -/
def fiveSecs : Json :=
  .obj [("sections".data,
    .arr (List.replicate 5
      (Json.obj [("type".data, .str "subjective".data),
                 ("content".data, .str (List.replicate 100 'a'))])))]

/-- A payload with one placeholder-marked section. -/
def placeholderSecs : Json :=
  .obj [("sections".data,
    .arr [Json.obj [("type".data, .str "subjective".data),
                    ("content".data, .str "Not enough data provided".data)]])]

/-- A database with one pending job that references no audio file. -/
def c9db : DB := { jobs := [{ id := 1, status := .pending, audio_file_id := none }] }

/-- All ways the fallback text path is taken by the primary parse function. -/
def jsonPathFails (s : List Char) : Prop :=
  extractJsonSub s = none ∨ ∃ m, extractJsonSub s = some m ∧ jsonLoads m = none

/-! ## Theorems -/

theorem jobSweepSelected_iff (now : Int) (j : TJobRow) :
    jobSweepSelected now j = true ↔
      ((j.status = TStatus.completed ∨ j.status = TStatus.failed) ∧
        ∃ t, j.completed_at = some t ∧ t < now - thirtyDays) := by
  unfold jobSweepSelected
  cases h : j.completed_at with
  | none => simp [h]
  | some t =>
    simp [h, Bool.and_eq_true, Bool.or_eq_true, decide_eq_true_eq]
    tauto

/-- C8: one retention sweep removes a TranscriptionJob row exactly when its
status is terminal (completed or failed) and its `completed_at` is set and
older than thirty days; a pending or processing job always survives,
regardless of its age. -/
theorem retention_sweep_terminal_only (now : Int) (jobs : List TJobRow) (j : TJobRow) :
    (j ∈ cleanup_old_jobs now jobs ↔
      j ∈ jobs ∧ ¬((j.status = TStatus.completed ∨ j.status = TStatus.failed) ∧
        ∃ t, j.completed_at = some t ∧ t < now - thirtyDays)) ∧
    ((j.status = TStatus.pending ∨ j.status = TStatus.processing) →
      j ∈ jobs → j ∈ cleanup_old_jobs now jobs) := by
  constructor
  · rw [cleanup_old_jobs, List.mem_filter]
    simp only [Bool.not_eq_true', ← Bool.not_eq_true (jobSweepSelected now j),
      jobSweepSelected_iff]
  · intro hst hmem
    rw [cleanup_old_jobs, List.mem_filter]
    refine ⟨hmem, ?_⟩
    cases hq : jobSweepSelected now j
    · rfl
    · exfalso
      rcases ((jobSweepSelected_iff now j).mp hq).1 with h | h <;>
        rcases hst with h2 | h2 <;> rw [h2] at h <;> cases h

theorem retention_sweep_terminal_only_witness :
    ({ id := 1, status := TStatus.pending, completed_at := some 0 : TJobRow } ∈
      cleanup_old_jobs (thirtyDays + 1)
        [{ id := 1, status := TStatus.pending, completed_at := some 0 }]) ∧
    { id := 2, status := TStatus.completed, completed_at := some 0 : TJobRow } ∉
      cleanup_old_jobs (thirtyDays + 1)
        [{ id := 2, status := TStatus.completed, completed_at := some 0 }] := by
  constructor
  · exact (retention_sweep_terminal_only _ _ _).2 (Or.inl rfl) (by simp)
  · intro hmem
    exact ((retention_sweep_terminal_only _ _ _).1.mp hmem).2
      ⟨Or.inl rfl, 0, rfl, by norm_num [thirtyDays]⟩

/-- C6: when the referenced transcription job exists but is not completed,
the assembler returns the not-completed error and the database — jobs, notes
and sections alike — is exactly unchanged. -/
theorem assemble_requires_completed_job (tmpl : TemplateOutcome) (ai : AiOutcome)
    (jid pid uid : Nat) (tty today : List Char) (db : DB) (job : TJobRow)
    (hfind : db.jobs.find? (fun j => j.id = jid) = some job)
    (hstatus : job.status ≠ TStatus.completed) :
    generate_soap_from_transcription tmpl ai jid pid uid tty today db =
      (.err "Transcription not completed yet".data, db) := by
  unfold generate_soap_from_transcription
  rw [hfind]
  simp [hstatus]

theorem assemble_requires_completed_job_witness :
    generate_soap_from_transcription .found (.ok "x".data) 1 2 7 "soap".data "d".data
      exDbPending = (.err "Transcription not completed yet".data, exDbPending) :=
  assemble_requires_completed_job _ _ _ _ _ _ _ _ { id := 1, status := .pending }
    (by rfl) (by decide)

/-- With the live binding the run can never get past the template lookup:
whatever the job, patient, backend outcome and database, the call returns
an error dict — at the job check, the status check, the patient check, or
the AttributeError raised by the nonexistent `get_template` attribute —
and the database comes back exactly as it went in. -/
theorem generate_live_err (ai : AiOutcome) (jid pid uid : Nat)
    (tty today : List Char) (db : DB) :
    ∃ m, generate_soap_from_transcription liveTemplateOutcome ai jid pid uid tty today db
      = (GenResult.err m, db) := by
  unfold generate_soap_from_transcription liveTemplateOutcome
  cases hj : db.jobs.find? (fun j => j.id = jid) with
  | none => exact ⟨_, rfl⟩
  | some job =>
    dsimp only
    cases hs : job.status with
    | pending => exact ⟨_, rfl⟩
    | processing => exact ⟨_, rfl⟩
    | failed => exact ⟨_, rfl⟩
    | completed =>
      cases hp : db.pets.find? (fun p => p.id = pid) with
      | none => exact ⟨_, rfl⟩
      | some pet => exact ⟨_, rfl⟩

/-- C1 (code bug): the live assembler never reaches the Note insert — the
template lookup at `soap_generation_service.py:45` calls
`template_service.get_template`, which does not exist, so every call
returns an error dict with the database exactly unchanged and never a
success.  No Note row is ever inserted, so the specified
rollback-on-failure-after-insert path cannot execute, and no rollback
exists in the code (two separate commits, an except handler that only
returns). -/
theorem assemble_live_never_inserts_note (ai : AiOutcome) (jid pid uid : Nat)
    (tty today : List Char) (db : DB) :
    (generate_soap_from_transcription liveTemplateOutcome ai jid pid uid tty today
        db).2 = db ∧
    ∀ nid k c,
      (generate_soap_from_transcription liveTemplateOutcome ai jid pid uid tty today
          db).1 ≠ GenResult.ok nid k c := by
  obtain ⟨m, hm⟩ := generate_live_err ai jid pid uid tty today db
  rw [hm]
  exact ⟨rfl, fun nid k c h => GenResult.noConfusion h⟩

theorem assemble_live_never_inserts_note_witness :
    (generate_soap_from_transcription liveTemplateOutcome (AiOutcome.ok c1text) 1 2 7
        "soap".data "d".data exDb).2 = exDb ∧
    ∀ nid k c,
      (generate_soap_from_transcription liveTemplateOutcome (AiOutcome.ok c1text) 1 2 7
          "soap".data "d".data exDb).1 ≠ GenResult.ok nid k c :=
  assemble_live_never_inserts_note (AiOutcome.ok c1text) 1 2 7 "soap".data "d".data exDb

/-- C4 (code bug): the live assembler persists nothing at all — every call
dies at the nonexistent `get_template` attribute before the Note insert and
the section loop, so the table of SOAPSection rows (and with it every
persisted order_index) is unchanged by every call; no dense renumbering of
gapped parser orders ever takes place. -/
theorem assemble_live_persists_no_sections (ai : AiOutcome) (jid pid uid : Nat)
    (tty today : List Char) (db : DB) :
    (generate_soap_from_transcription liveTemplateOutcome ai jid pid uid tty today
        db).2.soap_sections = db.soap_sections := by
  obtain ⟨m, hm⟩ := generate_live_err ai jid pid uid tty today db
  rw [hm]

theorem assemble_live_persists_no_sections_witness :
    (generate_soap_from_transcription liveTemplateOutcome (AiOutcome.ok c4text) 1 2 7
        "soap".data "d".data exDb).2.soap_sections = exDb.soap_sections :=
  assemble_live_persists_no_sections (AiOutcome.ok c4text) 1 2 7 "soap".data "d".data exDb

theorem addVitals_order (s : SectionD) : (addVitals s).order = s.order := by
  unfold addVitals
  by_cases h : s.stype = "objective".data
  · by_cases h2 : (extract_vitals_from_text s.content).nonempty <;> simp [h, h2]
  · simp [h]

theorem flushSection_orders (sections : List SectionD) (cur : Option (List Char))
    (content : List (List Char))
    (h : sections.map (fun s => s.order) = List.range' 1 sections.length) :
    (flushSection sections cur content).map (fun s => s.order) =
      List.range' 1 (flushSection sections cur content).length := by
  unfold flushSection
  cases cur with
  | none => exact h
  | some st =>
    by_cases hc : content.isEmpty
    · simp only [hc, if_true]
      exact h
    · simp only [hc, Bool.false_eq_true, if_false, List.map_append,
        List.length_append]
      rw [h]
      simp [List.range'_concat, Nat.add_comm]

theorem parseLines_nil (sections : List SectionD) (cur : Option (List Char))
    (content : List (List Char)) :
    parseLines [] sections cur content = flushSection sections cur content := rfl

theorem parseLines_cons (l : List Char) (rest : List (List Char))
    (sections : List SectionD) (cur : Option (List Char))
    (content : List (List Char)) :
    parseLines (l :: rest) sections cur content =
      if (pyStrip l).isEmpty then parseLines rest sections cur content
      else
        match headerType (pyStrip l) with
        | some st => parseLines rest (flushSection sections cur content) (some st) []
        | none =>
          match cur with
          | some _ => parseLines rest sections cur (content ++ [pyStrip l])
          | none => parseLines rest sections cur content := rfl

theorem parseLines_orders (lines : List (List Char)) :
    ∀ (sections : List SectionD) (cur : Option (List Char))
      (content : List (List Char)),
    sections.map (fun s => s.order) = List.range' 1 sections.length →
    (parseLines lines sections cur content).map (fun s => s.order) =
      List.range' 1 (parseLines lines sections cur content).length := by
  induction lines with
  | nil =>
    intro sections cur content h
    exact flushSection_orders _ _ _ h
  | cons l rest ih =>
    intro sections cur content h
    rw [parseLines_cons]
    by_cases he : (pyStrip l).isEmpty
    · simp only [he, if_true]
      exact ih _ _ _ h
    · simp only [he, if_false]
      cases hh : headerType (pyStrip l) with
      | some st => exact ih _ _ _ (flushSection_orders _ _ _ h)
      | none =>
        cases cur with
        | some c => exact ih _ _ _ h
        | none => exact ih _ _ _ h

theorem buildSectionRow_order (noteId : Nat) (item : Json) (row : SectionRow)
    (h : buildSectionRow noteId item = some row) :
    row.order_index = (jget item "order".data).getD .null := by
  unfold buildSectionRow at h
  cases hty : jget item "type".data with
  | none => rw [hty] at h; cases h
  | some ty =>
    rw [hty] at h
    cases hco : jget item "content".data with
    | none => rw [hco] at h; cases h
    | some co =>
      rw [hco] at h
      cases hord : jget item "order".data with
      | none => rw [hord] at h; cases h
      | some ord =>
        rw [hord] at h
        cases hvit : (jget item "vitals".data).getD (.obj []) with
        | obj kvs =>
          rw [hvit] at h
          cases h
          rfl
        | null => rw [hvit] at h; cases h
        | bool b => rw [hvit] at h; cases h
        | num q => rw [hvit] at h; cases h
        | str s => rw [hvit] at h; cases h
        | arr xs => rw [hvit] at h; cases h

theorem buildSectionRows_orders (noteId : Nat) :
    ∀ (items : List Json) (rows : List SectionRow),
      buildSectionRows noteId items = some rows →
      rows.map (fun r => r.order_index) =
        items.map (fun it => (jget it "order".data).getD .null) := by
  intro items
  induction items with
  | nil =>
    intro rows h
    cases h
    rfl
  | cons it rest ih =>
    intro rows h
    unfold buildSectionRows optionMapList at h
    cases hr : buildSectionRow noteId it with
    | none => rw [hr] at h; cases h
    | some row =>
      rw [hr] at h
      cases hres : optionMapList (buildSectionRow noteId) rest with
      | none => rw [hres] at h; cases h
      | some rs =>
        rw [hres] at h
        cases h
        simp only [List.map_cons]
        exact congrArg₂ (· :: ·) (buildSectionRow_order _ _ _ hr) (ih rs hres)

/-- The fallback text parser always numbers its own output densely: the
emitted order values are exactly 1..n.  (The gap-renumbering the spec
describes at persistence time is a different matter — see the C4
theorem: the live assembler never persists anything.) -/
theorem fallback_parser_orders_dense (resp : List Char) :
    (parse_structured_text_response resp).sections.map (fun s => s.order) =
      List.range' 1 (parse_structured_text_response resp).sections.length := by
  show ((parseLines (splitOnNl resp) [] none []).map addVitals).map (fun s => s.order) =
    List.range' 1 ((parseLines (splitOnNl resp) [] none []).map addVitals).length
  rw [List.map_map, List.length_map]
  have : ((fun s => s.order) ∘ addVitals) = (fun s : SectionD => s.order) := by
    funext s
    exact addVitals_order s
  rw [this]
  exact parseLines_orders _ _ _ _ rfl

/-- C3 (code bug): on the database whose completed job holds exactly the
quoted canonical one-line-header transcript, the live call fails at the
nonexistent `get_template` attribute: the caller receives the
AttributeError text and the database — which holds no Note and no
SOAPSection rows — is returned unchanged, instead of the specified
four-section Note.  Independently, the fallback parser consumes each
quoted one-line header whole (any line containing a header alias is a
header line and its text is discarded), so even it yields zero sections
for this transcript. -/
theorem assemble_canonical_live_fails :
    generate_soap_from_transcription liveTemplateOutcome (AiOutcome.ok c3text) 1 2 7
        "soap_standard".data "d".data exDbC3 =
      (.err "AttributeError: TemplateService object has no attribute get_template".data,
       exDbC3) ∧
    exDbC3.notes = [] ∧ exDbC3.soap_sections = [] ∧
    (parse_structured_text_response c3text).sections = [] :=
  ⟨rfl, rfl, rfl, rfl⟩

/-- With each canonical header alone on its line and the content
on the following line, the parser produces exactly the four sections in
order 1..4, the objective section carries vitals with temperature 101.5 and
heart rate 120, and the completeness score is 1. -/
theorem canonical_transcript_split_headers :
    (parse_structured_text_response c3textSplit).sections.map
        (fun s => (s.stype, s.order)) =
      [("subjective".data, 1), ("objective".data, 2), ("assessment".data, 3),
       ("plan".data, 4)] ∧
    ((parse_structured_text_response c3textSplit).sections.map
        (fun s => s.vitals))[1]? =
      some (some { temperature := some ⟨1015, 10⟩, heart_rate := some 120 }) ∧
    Frac.toRat ⟨1015, 10⟩ = 101.5 ∧
    (parse_structured_text_response c3textSplit).completeness_score.toRat = 1 := by
  refine ⟨rfl, rfl, ?_, ?_⟩
  · norm_num [Frac.toRat]
  · have h : (parse_structured_text_response c3textSplit).completeness_score =
      ⟨4, 4⟩ := rfl
    show (parse_structured_text_response c3textSplit).completeness_score.toRat = 1
    rw [h]
    norm_num [Frac.toRat]

/-- C7 counterexample: a decodable object without a sections key is returned
verbatim by the parse step: the result carries no sections entry and no
completeness score at all, rather than an empty sections list with score
zero. -/
theorem parse_shape_counterexample :
    parse_ai_soap_response c7text = .obj [("foo".data, .num ⟨1, 1⟩)] ∧
    jget (parse_ai_soap_response c7text) "sections".data = none ∧
    jget (parse_ai_soap_response c7text) "completeness_score".data = none :=
  ⟨rfl, rfl, rfl⟩

/-- C7 amended: the parse step is total on text input — a missing or
undecodable brace span falls back to the text path — and a fallback result
with no recognizable section has an empty sections list with completeness
score zero; but a successfully decoded JSON object is returned verbatim even
when it lacks both fields. -/
theorem parse_total_and_fallback_empty (s : List Char) :
    ((parse_structured_text_response s).sections = [] →
      (parse_structured_text_response s).completeness_score.toRat = 0) ∧
    (jsonPathFails s →
      parse_ai_soap_response s = soapDataToJson (parse_structured_text_response s)) := by
  constructor
  · intro h
    have hc : (parse_structured_text_response s).completeness_score =
        (Frac.ofNat (parse_structured_text_response s).sections.length).div
          (Frac.ofNat 4) := rfl
    rw [hc, h]
    norm_num [Frac.toRat, Frac.ofNat, Frac.div]
  · intro h
    unfold parse_ai_soap_response
    rcases h with h | ⟨m, hm, hl⟩
    · rw [h]
    · simp only [hm, hl]

theorem parse_total_and_fallback_empty_witness :
    (parse_structured_text_response "no recognizable headers here".data).completeness_score.toRat = 0 ∧
    parse_ai_soap_response "S:".data =
      soapDataToJson (parse_structured_text_response "S:".data) :=
  ⟨(parse_total_and_fallback_empty _).1 rfl,
   (parse_total_and_fallback_empty _).2 (Or.inl rfl)⟩

/-- C2 counterexample: on the JSON primary path the decoded object is
returned verbatim: its objective section has no vitals entry although the
extractor finds a temperature in that section's content — no vitals
extraction or merging happens on this path. -/
theorem json_path_no_vitals_counterexample :
    parse_ai_soap_response c2text = c2json ∧
    jget c2section "vitals".data = none ∧
    (extract_vitals_from_text "temp 101.5f".data).temperature = some ⟨1015, 10⟩ ∧
    (extract_vitals_from_text "temp 101.5f".data).nonempty = true :=
  ⟨rfl, rfl, rfl, rfl⟩

theorem flushSection_vitals (sections : List SectionD) (cur : Option (List Char))
    (content : List (List Char)) (h : ∀ x ∈ sections, x.vitals = none) :
    ∀ s ∈ flushSection sections cur content, s.vitals = none := by
  unfold flushSection
  cases cur with
  | none => exact h
  | some st =>
    by_cases hc : content.isEmpty
    · simp only [hc, if_true]
      exact h
    · simp only [hc, Bool.false_eq_true, if_false]
      intro s hs
      rcases List.mem_append.mp hs with h1 | h1
      · exact h s h1
      · rw [List.mem_singleton.mp h1]

theorem parseLines_vitals (lines : List (List Char)) :
    ∀ (sections : List SectionD) (cur : Option (List Char))
      (content : List (List Char)),
    (∀ x ∈ sections, x.vitals = none) →
    ∀ s ∈ parseLines lines sections cur content, s.vitals = none := by
  induction lines with
  | nil =>
    intro sections cur content h
    exact flushSection_vitals _ _ _ h
  | cons l rest ih =>
    intro sections cur content h
    rw [parseLines_cons]
    by_cases he : (pyStrip l).isEmpty
    · simp only [he, if_true]
      exact ih _ _ _ h
    · simp only [he, if_false]
      cases hh : headerType (pyStrip l) with
      | some st => exact ih _ _ _ (flushSection_vitals _ _ _ h)
      | none =>
        cases cur with
        | some c => exact ih _ _ _ h
        | none => exact ih _ _ _ h

/-- C2 amended: vitals extraction and merging happen only on the fallback
text path — there every objective section carries exactly the extractor
result on its own content (and no vitals entry when the extractor finds
nothing, or for a non-objective section) — while a decodable JSON object is
returned verbatim with no vitals pass at all. -/
theorem vitals_merge_fallback_only :
    (∀ s m j, extractJsonSub s = some m → jsonLoads m = some j →
      parse_ai_soap_response s = j) ∧
    (∀ resp sec, sec ∈ (parse_structured_text_response resp).sections →
      sec.vitals = (if sec.stype = "objective".data ∧
          (extract_vitals_from_text sec.content).nonempty = true then
        some (extract_vitals_from_text sec.content) else none)) := by
  constructor
  · intro s m j hm hj
    unfold parse_ai_soap_response
    simp only [hm, hj]
  · intro resp sec hmem
    have hmem2 : sec ∈ (parseLines (splitOnNl resp) [] none []).map addVitals := hmem
    obtain ⟨s0, hs0, rfl⟩ := List.mem_map.mp hmem2
    have hv : s0.vitals = none :=
      parseLines_vitals _ _ _ _ (by intro x hx; cases hx) s0 hs0
    unfold addVitals
    by_cases h1 : s0.stype = "objective".data
    · by_cases h2 : (extract_vitals_from_text s0.content).nonempty
      · simp [h1, h2]
      · simp [h1, h2, hv]
    · simp [h1, hv]

theorem vitals_merge_fallback_only_witness :
    parse_ai_soap_response c2text = c2json ∧
    c2fallbackSec.vitals = (if c2fallbackSec.stype = "objective".data ∧
        (extract_vitals_from_text c2fallbackSec.content).nonempty = true then
      some (extract_vitals_from_text c2fallbackSec.content) else none) :=
  ⟨vitals_merge_fallback_only.1 c2text _ c2json rfl rfl,
   vitals_merge_fallback_only.2 "O:\nhr 99".data c2fallbackSec (by decide)⟩

theorem optionMapList_length {α β : Type} (f : α → Option β) :
    ∀ (l : List α) (l2 : List β), optionMapList f l = some l2 → l2.length = l.length := by
  intro l
  induction l with
  | nil =>
    intro l2 h
    cases h
    rfl
  | cons a t ih =>
    intro l2 h
    unfold optionMapList at h
    cases hf : f a with
    | none => rw [hf] at h; cases h
    | some b =>
      rw [hf] at h
      cases ht : optionMapList f t with
      | none => rw [ht] at h; cases h
      | some bs =>
        rw [ht] at h
        cases h
        simp [ih bs ht]

theorem Frac.toRat_ofNat (n : Nat) : (Frac.ofNat n).toRat = n := by
  unfold Frac.ofNat Frac.toRat
  norm_num

theorem Frac.toRat_add (a b : Frac) (ha : (0 : Int) < a.den) (hb : (0 : Int) < b.den) :
    (a.add b).toRat = a.toRat + b.toRat := by
  unfold Frac.add Frac.toRat
  have ha2 : ((a.den : ℚ)) ≠ 0 := by exact_mod_cast ha.ne'
  have hb2 : ((b.den : ℚ)) ≠ 0 := by exact_mod_cast hb.ne'
  push_cast
  field_simp

theorem Frac.toRat_div (a b : Frac) (hbn : (0 : Int) < b.num) (hbd : (0 : Int) < b.den) :
    (a.div b).toRat = a.toRat / b.toRat := by
  unfold Frac.div Frac.toRat
  rw [if_pos hbn.le]
  have hbn2 : ((b.num : ℚ)) ≠ 0 := by exact_mod_cast hbn.ne'
  have hbd2 : ((b.den : ℚ)) ≠ 0 := by exact_mod_cast hbd.ne'
  push_cast
  rw [div_div_div_eq]

theorem Frac.ble_iff (a b : Frac) (ha : (0 : Int) < a.den) (hb : (0 : Int) < b.den) :
    a.ble b = true ↔ a.toRat ≤ b.toRat := by
  unfold Frac.ble Frac.toRat
  rw [decide_eq_true_eq,
    div_le_div_iff₀ (by exact_mod_cast ha : (0:ℚ) < a.den)
      (by exact_mod_cast hb : (0:ℚ) < b.den)]
  constructor
  · intro h
    exact_mod_cast h
  · intro h
    exact_mod_cast h

theorem Frac.toRat_fmin (a b : Frac) (ha : (0 : Int) < a.den) (hb : (0 : Int) < b.den) :
    (a.fmin b).toRat = min a.toRat b.toRat := by
  unfold Frac.fmin
  by_cases h : a.ble b = true
  · rw [if_pos h]
    exact (min_eq_left ((Frac.ble_iff a b ha hb).mp h)).symm
  · rw [if_neg h]
    have h2 : ¬ a.toRat ≤ b.toRat := fun hh => h ((Frac.ble_iff a b ha hb).mpr hh)
    exact (min_eq_right (le_of_not_le h2)).symm

/-- C5 counterexample: a parsed list of five sections with five hundred
characters of content yields completeness 9/8, outside the unit interval the
claim asserts (the code divides the raw section count, duplicates included,
by four). -/
theorem validator_score_above_one_counterexample :
    ∃ v, validate_soap_content fiveSecs = some v ∧
      v.completeness_score.toRat = 9 / 8 ∧
      ¬ v.completeness_score.toRat ≤ 1 := by
  refine ⟨_, rfl, ?_, ?_⟩
  · show Frac.toRat ⟨9, 8⟩ = 9 / 8
    norm_num [Frac.toRat]
  · show ¬ Frac.toRat ⟨9, 8⟩ ≤ 1
    norm_num [Frac.toRat]

/-- C5 amended: the completeness score is the arithmetic mean of
`found_count / 4` and `min 1 (total_content_chars / 500)`, where
`found_count` is the raw number of section entries — duplicates and
non-canonical types included, and placeholder-marked sections counted too
while also being flagged as quality issues; the score lies in [0, 1] only
when the list has at most four entries. -/
theorem validator_scoring (j : Json) (v : Validation) (items : List Json)
    (contents : List (List Char))
    (hv : validate_soap_content j = some v)
    (hitems : pyIter ((jget j "sections".data).getD (.arr [])) = some items)
    (hcontents : optionMapList sectionContent items = some contents) :
    v.completeness_score.toRat =
      specCompleteness items.length ((contents.map List.length).sum) ∧
    (items.length ≤ 4 →
      0 ≤ v.completeness_score.toRat ∧ v.completeness_score.toRat ≤ 1) ∧
    v.quality_issues =
      ((items.zip contents).filter (fun p => hasPlaceholder p.2)).map
        (fun p => (jget p.1 "type".data).getD .null) := by
  cases j with
  | null => unfold validate_soap_content at hv; cases hv
  | bool b => unfold validate_soap_content at hv; cases hv
  | num q => unfold validate_soap_content at hv; cases hv
  | str s => unfold validate_soap_content at hv; cases hv
  | arr xs => unfold validate_soap_content at hv; cases hv
  | obj kvs =>
    unfold validate_soap_content at hv
    dsimp only at hv hitems hcontents ⊢
    rw [hitems] at hv
    dsimp only at hv
    cases hfound : optionMapList (fun s => jget s ['t', 'y', 'p', 'e']) items with
    | none => rw [hfound] at hv; cases hv
    | some found =>
      rw [hfound, hcontents] at hv
      simp only [Option.some.injEq] at hv
      subst hv
      have hlen : found.length = items.length := optionMapList_length _ _ _ hfound
      have hform : Frac.toRat
          ((((Frac.ofNat found.length).div (Frac.ofNat 4)).add
            ((Frac.ofNat 1).fmin
              ((Frac.ofNat ((contents.map List.length).sum)).div (Frac.ofNat 500)))).div
            (Frac.ofNat 2)) =
          specCompleteness items.length ((contents.map List.length).sum) := by
        have hA : (0 : Int) < ((Frac.ofNat found.length).div (Frac.ofNat 4)).den := by
          norm_num [Frac.div, Frac.ofNat]
        have hB : (0 : Int) <
            ((Frac.ofNat 1).fmin
              ((Frac.ofNat ((contents.map List.length).sum)).div (Frac.ofNat 500))).den := by
          unfold Frac.fmin
          split <;> norm_num [Frac.div, Frac.ofNat]
        rw [Frac.toRat_div _ _ (by norm_num [Frac.ofNat]) (by norm_num [Frac.ofNat]),
          Frac.toRat_add _ _ hA hB,
          Frac.toRat_div _ _ (by norm_num [Frac.ofNat]) (by norm_num [Frac.ofNat]),
          Frac.toRat_fmin _ _ (by norm_num [Frac.ofNat]) (by norm_num [Frac.div, Frac.ofNat]),
          Frac.toRat_div _ _ (by norm_num [Frac.ofNat]) (by norm_num [Frac.ofNat])]
        unfold specCompleteness
        rw [hlen]
        norm_num [Frac.toRat_ofNat]
      refine ⟨hform, ?_, rfl⟩
      intro hle
      dsimp only
      rw [hform]
      unfold specCompleteness
      set t : ℚ := (((contents.map List.length).sum : Nat) : ℚ) with ht
      have htnn : 0 ≤ t := by positivity
      have h1 : ((items.length : ℚ) / 4) ≤ 1 := by
        rw [div_le_one (by norm_num)]
        exact_mod_cast hle
      have h2 : min 1 (t / 500) ≤ 1 := min_le_left _ _
      have h3 : (0 : ℚ) ≤ min 1 (t / 500) := le_min (by norm_num) (by positivity)
      have h4 : (0 : ℚ) ≤ (items.length : ℚ) / 4 := by positivity
      constructor
      · linarith
      · linarith

theorem validator_scoring_witness :
    ∃ v, validate_soap_content placeholderSecs = some v ∧
      v.completeness_score.toRat = specCompleteness 1 24 ∧
      v.quality_issues = [Json.str "subjective".data] := by
  obtain ⟨h1, _h2, h3⟩ := validator_scoring placeholderSecs _
    [Json.obj [("type".data, .str "subjective".data),
               ("content".data, .str "Not enough data provided".data)]]
    ["Not enough data provided".data] rfl rfl rfl
  exact ⟨_, rfl, h1, h3⟩

/-- C9 counterexample: a pending job with no audio-file reference is marked
failed by the queue loop directly from pending: the final status is failed
and no processing transition ever appears in the trace. -/
theorem queue_skips_processing_counterexample :
    let r := process_transcription_queue (fun _ => false) (fun _ => .noResults) 50 c9db
    (r.1.jobs.find? (fun x => x.id = 1)).map (fun j => j.status) =
      some .failed ∧
    Ev.setStatus 1 .processing ∉ r.2 ∧
    (c9db.jobs.find? (fun x => x.id = 1)).map (fun j => j.status) =
      some .pending := by
  refine ⟨rfl, ?_, rfl⟩
  decide

theorem find?_updateJob (db : DB) (b : Nat) (f : TJobRow → TJobRow) (a : Nat)
    (hf : ∀ x, (f x).id = x.id) :
    (updateJob db b f).jobs.find? (fun x => x.id = a) =
      (db.jobs.find? (fun x => x.id = a)).map
        (fun x => if x.id = b then f x else x) := by
  show (db.jobs.map fun j => if j.id = b then f j else j).find?
      (fun x => decide (x.id = a)) = _
  rw [List.find?_map]
  have hp : ((fun x => decide (x.id = a)) ∘ fun j => if j.id = b then f j else j) =
      (fun x : TJobRow => decide (x.id = a)) := by
    funext x
    by_cases h : x.id = b <;> simp [h, hf]
  rw [hp]

theorem find?_updateJob_ne (db : DB) (b : Nat) (f : TJobRow → TJobRow) (a : Nat)
    (hf : ∀ x, (f x).id = x.id) (hab : a ≠ b) :
    (updateJob db b f).jobs.find? (fun x => x.id = a) =
      db.jobs.find? (fun x => x.id = a) := by
  rw [find?_updateJob db b f a hf]
  cases h : db.jobs.find? (fun x => x.id = a) with
  | none => rfl
  | some x =>
    have hx : x.id = a := by simpa using List.find?_some h
    simp [hx, hab]

theorem find?_updateJob_self (db : DB) (b : Nat) (f : TJobRow → TJobRow)
    (hf : ∀ x, (f x).id = x.id) :
    (updateJob db b f).jobs.find? (fun x => x.id = b) =
      (db.jobs.find? (fun x => x.id = b)).map f := by
  rw [find?_updateJob db b f b hf]
  cases h : db.jobs.find? (fun x => x.id = b) with
  | none => rfl
  | some x =>
    have hx : x.id = b := by simpa using List.find?_some h
    simp [hx]

theorem transcribe_preserve (fe : List Char → Bool) (bk : SpeechOutcome)
    (path : List Char) (jid : Nat) (now : Int) (db : DB) (a : Nat) (hne : a ≠ jid) :
    (transcribe_audio fe bk path jid now db).2.1.jobs.find? (fun x => x.id = a) =
      db.jobs.find? (fun x => x.id = a) := by
  unfold transcribe_audio
  cases h : db.jobs.find? (fun j => j.id = jid) with
  | none => rfl
  | some job =>
    by_cases hfe : fe path
    · simp only [hfe, Bool.not_true, Bool.false_eq_true, if_false]
      cases bk <;>
        (dsimp only
         rw [find?_updateJob_ne _ _ _ _ (by intro x; rfl) hne,
           find?_updateJob_ne _ _ _ _ (by intro x; rfl) hne])
    · simp only [hfe, Bool.not_false, if_true]
      rw [find?_updateJob_ne _ _ _ _ (by intro x; rfl) hne,
        find?_updateJob_ne _ _ _ _ (by intro x; rfl) hne]

theorem queuePhase2_preserve (fe : List Char → Bool)
    (bkf : Nat → SpeechOutcome) (now : Int) :
    ∀ (D : List (Nat × List Char)) (db : DB) (a : Nat),
    (∀ d ∈ D, d.1 ≠ a) →
    (queuePhase2 fe bkf now D db).1.jobs.find? (fun x => x.id = a) =
      db.jobs.find? (fun x => x.id = a) := by
  intro D
  induction D with
  | nil => intro db a _; rfl
  | cons d rest ih =>
    intro db a h
    show (queuePhase2 fe bkf now rest
        (transcribe_audio fe (bkf d.1) d.2 d.1 now db).2.1).1.jobs.find?
        (fun x => x.id = a) = _
    rw [ih _ _ (fun x hx => h x (List.mem_cons_of_mem _ hx)),
      transcribe_preserve _ _ _ _ _ _ _ (fun hh => h d (List.mem_cons_self _ _) hh.symm)]

theorem queuePhase1_preserve (fe : List Char → Bool) (now : Int) :
    ∀ (L : List TJobRow) (db : DB) (a : Nat),
    (∀ x ∈ L, x.id ≠ a) →
    (queuePhase1 fe now L db).1.jobs.find? (fun x => x.id = a) =
      db.jobs.find? (fun x => x.id = a) := by
  intro L
  induction L with
  | nil => intro db a _; rfl
  | cons x rest ih =>
    intro db a h
    have hx : x.id ≠ a := h x (List.mem_cons_self _ _)
    have hr : ∀ y ∈ rest, y.id ≠ a := fun y hy => h y (List.mem_cons_of_mem _ hy)
    unfold queuePhase1
    cases ha : audioOf db x with
    | some af =>
      by_cases hfe : fe af.file_path
      · simp only [hfe, if_true]
        exact ih _ _ hr
      · simp only [hfe, Bool.false_eq_true, if_false]
        rw [ih _ _ hr, find?_updateJob_ne _ _ _ _ (by intro y; rfl) (fun hh => hx hh.symm)]
    | none =>
      rw [ih _ _ hr, find?_updateJob_ne _ _ _ _ (by intro y; rfl) (fun hh => hx hh.symm)]

theorem queuePhase1_audio (fe : List Char → Bool) (now : Int) :
    ∀ (L : List TJobRow) (db : DB),
    (queuePhase1 fe now L db).1.audio_files = db.audio_files := by
  intro L
  induction L with
  | nil => intro db; rfl
  | cons x rest ih =>
    intro db
    unfold queuePhase1
    cases ha : audioOf db x with
    | some af =>
      by_cases hfe : fe af.file_path
      · simp only [hfe, if_true]
        exact ih _
      · simp only [hfe, Bool.false_eq_true, if_false]
        exact ih _
    | none => exact ih _

theorem queuePhase1_dispatch_mem (fe : List Char → Bool) (now : Int) :
    ∀ (L : List TJobRow) (db : DB) (d : Nat × List Char),
    d ∈ (queuePhase1 fe now L db).2.1 → d.1 ∈ L.map (fun x => x.id) := by
  intro L
  induction L with
  | nil => intro db d h; cases h
  | cons x rest ih =>
    intro db d h
    unfold queuePhase1 at h
    cases ha : audioOf db x with
    | some af =>
      rw [ha] at h
      by_cases hfe : fe af.file_path
      · simp only [hfe, if_true] at h
        rcases List.mem_cons.mp h with h1 | h1
        · rw [h1]
          exact List.mem_cons_self _ _
        · exact List.mem_cons_of_mem _ (ih _ _ h1)
      · simp only [hfe, Bool.false_eq_true, if_false] at h
        exact List.mem_cons_of_mem _ (ih _ _ h)
    | none =>
      rw [ha] at h
      exact List.mem_cons_of_mem _ (ih _ _ h)

theorem mem_insertByCreated (j : TJobRow) :
    ∀ (l : List TJobRow) (x : TJobRow), x ∈ insertByCreated j l → x = j ∨ x ∈ l := by
  intro l
  induction l with
  | nil =>
    intro x h
    exact Or.inl (List.mem_singleton.mp h)
  | cons y t ih =>
    intro x h
    unfold insertByCreated at h
    by_cases hc : y.created_at ≤ j.created_at
    · rw [if_pos hc] at h
      rcases List.mem_cons.mp h with h1 | h1
      · exact Or.inr (List.mem_cons.mpr (Or.inl h1))
      · rcases ih x h1 with h2 | h2
        · exact Or.inl h2
        · exact Or.inr (List.mem_cons_of_mem _ h2)
    · rw [if_neg hc] at h
      exact List.mem_cons.mp h

theorem mem_sortByCreated_aux :
    ∀ (l : List TJobRow) (acc : List TJobRow) (x : TJobRow),
    x ∈ l.foldl (fun a j => insertByCreated j a) acc → x ∈ acc ∨ x ∈ l := by
  intro l
  induction l with
  | nil =>
    intro acc x h
    exact Or.inl h
  | cons y t ih =>
    intro acc x h
    rcases ih (insertByCreated y acc) x h with h1 | h1
    · rcases mem_insertByCreated y acc x h1 with h2 | h2
      · exact Or.inr (h2 ▸ List.mem_cons_self _ _)
      · exact Or.inl h2
    · exact Or.inr (List.mem_cons_of_mem _ h1)

theorem mem_pendingBatch (db : DB) (j : TJobRow) (h : j ∈ pendingBatch db) :
    j ∈ db.jobs ∧ j.status = TStatus.pending := by
  unfold pendingBatch sortByCreated at h
  have h1 := List.take_subset _ _ h
  rcases mem_sortByCreated_aux _ [] j h1 with h2 | h2
  · cases h2
  · constructor
    · exact List.mem_of_mem_filter h2
    · have := List.of_mem_filter h2
      simpa using this

theorem find?_isSome_of_mem (l : List TJobRow) (j : TJobRow) (h : j ∈ l) :
    (l.find? (fun x => x.id = j.id)).isSome = true := by
  induction l with
  | nil => cases h
  | cons y t ih =>
    rcases List.mem_cons.mp h with rfl | h1
    · simp [List.find?_cons]
    · by_cases hy : y.id = j.id
      · simp [List.find?_cons, hy]
      · simp [List.find?_cons, hy, ih h1]

theorem queuePhase1_bad (fe : List Char → Bool) (now : Int) :
    ∀ (L : List TJobRow) (db : DB) (j : TJobRow),
    (L.map (fun x => x.id)).Nodup → j ∈ L →
    (audioOf db j = none ∨ ∃ af, audioOf db j = some af ∧ fe af.file_path = false) →
    (db.jobs.find? (fun x => x.id = j.id)).isSome = true →
    (∀ j2, (queuePhase1 fe now L db).1.jobs.find? (fun x => x.id = j.id) = some j2 →
      j2.status = .failed ∧
      j2.error_message = some "Audio file not found".data ∧
      j2.completed_at = some now) ∧
    (∀ d ∈ (queuePhase1 fe now L db).2.1, d.1 ≠ j.id) := by
  intro L
  induction L with
  | nil =>
    intro db j _ hmem _ _
    cases hmem
  | cons x rest ih =>
    intro db j hnd hmem hbad hsome
    have hnd2 : (rest.map (fun y => y.id)).Nodup := (List.nodup_cons.mp hnd).2
    have hxnotin : x.id ∉ rest.map (fun y => y.id) := (List.nodup_cons.mp hnd).1
    rcases List.mem_cons.mp hmem with hjx | hmemr
    · subst hjx
      have hidsne : ∀ y ∈ rest, y.id ≠ j.id := by
        intro y hy hc
        exact hxnotin (hc ▸ List.mem_map_of_mem _ hy)
      constructor
      · intro j2 hfind
        rcases hbad with hb | ⟨af, haf, hfe⟩
        · unfold queuePhase1 at hfind
          rw [hb] at hfind
          try dsimp only at hfind
          rw [queuePhase1_preserve fe now rest _ _ hidsne,
            find?_updateJob_self _ _ _ (by intro y; rfl)] at hfind
          cases hsf : db.jobs.find? (fun y => y.id = j.id) with
          | none => rw [hsf] at hfind; cases hfind
          | some y =>
            rw [hsf] at hfind
            cases hfind
            exact ⟨rfl, rfl, rfl⟩
        · unfold queuePhase1 at hfind
          rw [haf] at hfind
          simp only [hfe, Bool.false_eq_true, if_false] at hfind
          try dsimp only at hfind
          rw [queuePhase1_preserve fe now rest _ _ hidsne,
            find?_updateJob_self _ _ _ (by intro y; rfl)] at hfind
          cases hsf : db.jobs.find? (fun y => y.id = j.id) with
          | none => rw [hsf] at hfind; cases hfind
          | some y =>
            rw [hsf] at hfind
            cases hfind
            exact ⟨rfl, rfl, rfl⟩
      · intro d hd hc
        rcases hbad with hb | ⟨af, haf, hfe⟩
        · unfold queuePhase1 at hd
          rw [hb] at hd
          try dsimp only at hd
          exact hxnotin (hc ▸ queuePhase1_dispatch_mem fe now rest _ d hd)
        · unfold queuePhase1 at hd
          rw [haf] at hd
          simp only [hfe, Bool.false_eq_true, if_false] at hd
          try dsimp only at hd
          exact hxnotin (hc ▸ queuePhase1_dispatch_mem fe now rest _ d hd)
    · have hxj : x.id ≠ j.id := fun hc => hxnotin (hc ▸ List.mem_map_of_mem _ hmemr)
      cases ha : audioOf db x with
      | some af =>
        by_cases hfe2 : fe af.file_path
        · obtain ⟨h1, h2⟩ := ih db j hnd2 hmemr hbad hsome
          constructor
          · intro j2 hfind
            unfold queuePhase1 at hfind
            rw [ha] at hfind
            simp only [hfe2, if_true] at hfind
            try dsimp only at hfind
            exact h1 j2 hfind
          · intro d hd hc
            unfold queuePhase1 at hd
            rw [ha] at hd
            simp only [hfe2, if_true] at hd
            try dsimp only at hd
            rcases List.mem_cons.mp hd with h3 | h3
            · rw [h3] at hc
              exact hxj hc
            · exact h2 d h3 hc
        · have hsome2 : ((updateJob db x.id (fun y =>
              { y with status := TStatus.failed,
                       error_message := some "Audio file not found".data,
                       completed_at := some now })).jobs.find?
                (fun y => y.id = j.id)).isSome = true := by
            rw [find?_updateJob_ne _ _ _ _ (by intro y; rfl) (fun hc => hxj hc.symm)]
            exact hsome
          obtain ⟨h1, h2⟩ := ih (updateJob db x.id (fun y =>
              { y with status := TStatus.failed,
                       error_message := some "Audio file not found".data,
                       completed_at := some now })) j hnd2 hmemr hbad hsome2
          constructor
          · intro j2 hfind
            unfold queuePhase1 at hfind
            rw [ha] at hfind
            simp only [hfe2, Bool.false_eq_true, if_false] at hfind
            try dsimp only at hfind
            exact h1 j2 hfind
          · intro d hd hc
            unfold queuePhase1 at hd
            rw [ha] at hd
            simp only [hfe2, Bool.false_eq_true, if_false] at hd
            try dsimp only at hd
            exact h2 d hd hc
      | none =>
        have hsome2 : ((updateJob db x.id (fun y =>
            { y with status := TStatus.failed,
                     error_message := some "Audio file not found".data,
                     completed_at := some now })).jobs.find?
              (fun y => y.id = j.id)).isSome = true := by
          rw [find?_updateJob_ne _ _ _ _ (by intro y; rfl) (fun hc => hxj hc.symm)]
          exact hsome
        obtain ⟨h1, h2⟩ := ih (updateJob db x.id (fun y =>
            { y with status := TStatus.failed,
                     error_message := some "Audio file not found".data,
                     completed_at := some now })) j hnd2 hmemr hbad hsome2
        constructor
        · intro j2 hfind
          unfold queuePhase1 at hfind
          rw [ha] at hfind
          try dsimp only at hfind
          exact h1 j2 hfind
        · intro d hd hc
          unfold queuePhase1 at hd
          rw [ha] at hd
          try dsimp only at hd
          exact h2 d hd hc

theorem transcribe_trace_head (fe : List Char → Bool) (bk : SpeechOutcome)
    (path : List Char) (jid : Nat) (now : Int) (db : DB) (job : TJobRow)
    (h : db.jobs.find? (fun x => x.id = jid) = some job) :
    ∃ tail, (transcribe_audio fe bk path jid now db).2.2 =
      Ev.setStatus jid .processing :: Ev.fileCheck path :: tail := by
  unfold transcribe_audio
  rw [h]
  by_cases hfe : fe path
  · simp only [hfe, Bool.not_true, Bool.false_eq_true, if_false]
    cases bk <;> exact ⟨_, rfl⟩
  · simp only [hfe, Bool.not_false, if_true]
    exact ⟨_, rfl⟩

theorem transcribe_failure_state (fe : List Char → Bool) (bk : SpeechOutcome)
    (path : List Char) (jid : Nat) (now : Int) (db : DB) (m : List Char)
    (j2 : TJobRow)
    (hres : (transcribe_audio fe bk path jid now db).1 = .err m)
    (hfind : (transcribe_audio fe bk path jid now db).2.1.jobs.find?
      (fun x => x.id = jid) = some j2) :
    j2.status = .failed ∧ j2.error_message = some m ∧
      j2.completed_at = some now ∧ j2.started_at = some now := by
  unfold transcribe_audio at hres hfind
  cases h : db.jobs.find? (fun j => j.id = jid) with
  | none =>
    rw [h] at hres hfind
    try dsimp only at hres hfind
    rw [h] at hfind
    cases hfind
  | some job =>
    rw [h] at hres hfind
    try dsimp only at hres hfind
    by_cases hfe : fe path
    · simp only [hfe, Bool.not_true, Bool.false_eq_true, if_false] at hres hfind
      cases bk with
      | exn mm =>
        try dsimp only at hres hfind
        cases hres
        rw [find?_updateJob_self _ _ _ (by intro y; rfl),
          find?_updateJob_self _ _ _ (by intro y; rfl)] at hfind
        rw [h] at hfind
        simp only [Option.map_some'] at hfind
        cases hfind
        exact ⟨rfl, rfl, rfl, rfl⟩
      | noResults =>
        try dsimp only at hres hfind
        cases hres
        rw [find?_updateJob_self _ _ _ (by intro y; rfl),
          find?_updateJob_self _ _ _ (by intro y; rfl)] at hfind
        rw [h] at hfind
        simp only [Option.map_some'] at hfind
        cases hfind
        exact ⟨rfl, rfl, rfl, rfl⟩
      | results t c =>
        try dsimp only at hres
        cases hres
    · simp only [hfe, Bool.not_false, if_true] at hres hfind
      cases hres
      rw [find?_updateJob_self _ _ _ (by intro y; rfl),
        find?_updateJob_self _ _ _ (by intro y; rfl)] at hfind
      rw [h] at hfind
      simp only [Option.map_some'] at hfind
      cases hfind
      exact ⟨rfl, rfl, rfl, rfl⟩

theorem queue_missing_audio_failed (fe : List Char → Bool)
    (bkf : Nat → SpeechOutcome) (now : Int) (db : DB) (j j2 : TJobRow)
    (hnd : ((pendingBatch db).map (fun x => x.id)).Nodup)
    (hmem : j ∈ pendingBatch db)
    (hbad : audioOf db j = none ∨
      ∃ af, audioOf db j = some af ∧ fe af.file_path = false)
    (hfind : (process_transcription_queue fe bkf now db).1.jobs.find?
      (fun x => x.id = j.id) = some j2) :
    j2.status = .failed ∧ j2.error_message = some "Audio file not found".data ∧
      j2.completed_at = some now := by
  have hjdb := mem_pendingBatch db j hmem
  have hsome := find?_isSome_of_mem db.jobs j hjdb.1
  obtain ⟨h1, h2⟩ := queuePhase1_bad fe now (pendingBatch db) db j hnd hmem hbad hsome
  unfold process_transcription_queue at hfind
  try dsimp only at hfind
  rw [queuePhase2_preserve fe bkf now _ _ _ (fun d hd => h2 d hd)] at hfind
  exact h1 j2 hfind

/-- C9 amended: a pending job that is dispatched is first committed as
processing — the first two events of its transcription trace are the
processing transition and the existence check, so both precede any file read
or backend call — with `started_at` set; every failing transcription call
leaves the job failed with `error_message`, `completed_at` and `started_at`
set; but a pending job whose audio-file row is missing, or whose file does
not exist, is failed by the queue loop directly from pending, with
`error_message` and `completed_at` set and no processing transition of its
own. -/
theorem queue_processing_lifecycle :
    (∀ (fe : List Char → Bool) (bk : SpeechOutcome) (path : List Char)
      (jid : Nat) (now : Int) (db : DB) (job : TJobRow),
      db.jobs.find? (fun x => x.id = jid) = some job →
      ∃ tail, (transcribe_audio fe bk path jid now db).2.2 =
        Ev.setStatus jid .processing :: Ev.fileCheck path :: tail) ∧
    (∀ (fe : List Char → Bool) (bk : SpeechOutcome) (path : List Char)
      (jid : Nat) (now : Int) (db : DB) (m : List Char) (j2 : TJobRow),
      (transcribe_audio fe bk path jid now db).1 = .err m →
      (transcribe_audio fe bk path jid now db).2.1.jobs.find?
        (fun x => x.id = jid) = some j2 →
      j2.status = .failed ∧ j2.error_message = some m ∧
        j2.completed_at = some now ∧ j2.started_at = some now) ∧
    (∀ (fe : List Char → Bool) (bkf : Nat → SpeechOutcome) (now : Int)
      (db : DB) (j j2 : TJobRow),
      ((pendingBatch db).map (fun x => x.id)).Nodup →
      j ∈ pendingBatch db →
      (audioOf db j = none ∨
        ∃ af, audioOf db j = some af ∧ fe af.file_path = false) →
      (process_transcription_queue fe bkf now db).1.jobs.find?
        (fun x => x.id = j.id) = some j2 →
      j2.status = .failed ∧ j2.error_message = some "Audio file not found".data ∧
        j2.completed_at = some now) :=
  ⟨transcribe_trace_head, transcribe_failure_state, queue_missing_audio_failed⟩

theorem queue_processing_lifecycle_witness :
    (∃ tail, (transcribe_audio (fun _ => false) .noResults "/a".data 1 7 c9db).2.2 =
      Ev.setStatus 1 .processing :: Ev.fileCheck "/a".data :: tail) ∧
    ({ id := 1, status := TStatus.failed,
       error_message := some ("Audio file not found: ".data ++ "/a".data),
       started_at := some 7, completed_at := some 7,
       audio_file_id := none : TJobRow }.status = TStatus.failed ∧
     { id := 1, status := TStatus.failed,
       error_message := some ("Audio file not found: ".data ++ "/a".data),
       started_at := some 7, completed_at := some 7,
       audio_file_id := none : TJobRow }.error_message =
        some ("Audio file not found: ".data ++ "/a".data) ∧
     { id := 1, status := TStatus.failed,
       error_message := some ("Audio file not found: ".data ++ "/a".data),
       started_at := some 7, completed_at := some 7,
       audio_file_id := none : TJobRow }.completed_at = some 7 ∧
     { id := 1, status := TStatus.failed,
       error_message := some ("Audio file not found: ".data ++ "/a".data),
       started_at := some 7, completed_at := some 7,
       audio_file_id := none : TJobRow }.started_at = some 7) ∧
    ({ id := 1, status := TStatus.failed,
       error_message := some "Audio file not found".data,
       completed_at := some 50, audio_file_id := none : TJobRow }.status =
        TStatus.failed ∧
     { id := 1, status := TStatus.failed,
       error_message := some "Audio file not found".data,
       completed_at := some 50, audio_file_id := none : TJobRow }.error_message =
        some "Audio file not found".data ∧
     { id := 1, status := TStatus.failed,
       error_message := some "Audio file not found".data,
       completed_at := some 50, audio_file_id := none : TJobRow }.completed_at =
        some 50) :=
  ⟨queue_processing_lifecycle.1 (fun _ => false) .noResults "/a".data 1 7 c9db
    { id := 1, status := .pending, audio_file_id := none } rfl,
   queue_processing_lifecycle.2.1 (fun _ => false) .noResults "/a".data 1 7 c9db
    ("Audio file not found: ".data ++ "/a".data) _ rfl rfl,
   queue_processing_lifecycle.2.2 (fun _ => false) (fun _ => .noResults) 50 c9db
    { id := 1, status := .pending, audio_file_id := none } _ (by decide) (by decide)
    (Or.inl rfl) rfl⟩

theorem dropWhile_head_not (p : Char → Bool) :
    ∀ (l : List Char) (c : Char), (l.dropWhile p).head? = some c → p c = false := by
  intro l
  induction l with
  | nil =>
    intro c h
    cases h
  | cons a t ih =>
    intro c h
    by_cases hp : p a
    · rw [List.dropWhile_cons, if_pos hp] at h
      exact ih c h
    · rw [List.dropWhile_cons, if_neg hp] at h
      cases h
      exact eq_false_of_ne_true hp

theorem dropWhile_getLast (p : Char → Bool) :
    ∀ (l : List Char), l.dropWhile p ≠ [] → (l.dropWhile p).getLast? = l.getLast? := by
  intro l
  induction l with
  | nil =>
    intro h
    rfl
  | cons a t ih =>
    intro h
    by_cases hp : p a
    · rw [List.dropWhile_cons, if_pos hp] at h ⊢
      cases t with
      | nil => exact absurd rfl h
      | cons b t2 =>
        rw [List.getLast?_cons_cons]
        exact ih h
    · rw [List.dropWhile_cons, if_neg hp]

theorem dropWhile_eq_self (p : Char → Bool) (l : List Char)
    (h : ∀ c, l.head? = some c → p c = false) : l.dropWhile p = l := by
  cases l with
  | nil => rfl
  | cons a t =>
    rw [List.dropWhile_cons, if_neg]
    rw [h a rfl]
    exact Bool.false_ne_true

theorem mem_pyStrip (l : List Char) (c : Char) (h : c ∈ pyStrip l) : c ∈ l := by
  unfold pyStrip at h
  rw [List.mem_reverse] at h
  have h2 := (List.dropWhile_sublist _).subset h
  rw [List.mem_reverse] at h2
  exact (List.dropWhile_sublist _).subset h2

theorem pyStrip_head (l : List Char) (c : Char)
    (h : (pyStrip l).head? = some c) : isPySpace c = false := by
  unfold pyStrip at h
  rw [List.head?_reverse] at h
  have hne : (l.dropWhile isPySpace).reverse.dropWhile isPySpace ≠ [] := by
    intro hh
    rw [hh] at h
    cases h
  rw [dropWhile_getLast _ _ hne, List.getLast?_reverse] at h
  exact dropWhile_head_not _ _ _ h

theorem pyStrip_getLast (l : List Char) (c : Char)
    (h : (pyStrip l).getLast? = some c) : isPySpace c = false := by
  unfold pyStrip at h
  rw [List.getLast?_reverse] at h
  exact dropWhile_head_not _ _ _ h

theorem pyStrip_eq_self (l : List Char)
    (h1 : ∀ c, l.head? = some c → isPySpace c = false)
    (h2 : ∀ c, l.getLast? = some c → isPySpace c = false) : pyStrip l = l := by
  unfold pyStrip
  rw [dropWhile_eq_self _ _ h1]
  rw [dropWhile_eq_self _ _ (by
    intro c hc
    rw [List.head?_reverse] at hc
    exact h2 c hc)]
  exact List.reverse_reverse l

theorem splitOnNl_no_newline : ∀ (s : List Char) (l : List Char),
    l ∈ splitOnNl s → '\n' ∉ l := by
  intro s
  induction s with
  | nil =>
    intro l h
    rw [List.mem_singleton.mp h]
    intro hc
    cases hc
  | cons c t ih =>
    intro l h
    unfold splitOnNl at h
    by_cases hc : c = '\n'
    · rw [if_pos hc] at h
      rcases List.mem_cons.mp h with h1 | h1
      · rw [h1]
        intro hh
        cases hh
      · exact ih l h1
    · rw [if_neg hc] at h
      cases hsp : splitOnNl t with
      | nil =>
        rw [hsp] at h
        rw [List.mem_singleton.mp h]
        intro hh
        rcases List.mem_cons.mp hh with h2 | h2
        · exact hc h2.symm
        · cases h2
      | cons l2 ls =>
        rw [hsp] at h
        rcases List.mem_cons.mp h with h1 | h1
        · rw [h1]
          intro hh
          rcases List.mem_cons.mp hh with h2 | h2
          · exact hc h2.symm
          · exact ih l2 (hsp ▸ List.mem_cons_self _ _) h2
        · exact ih l (hsp ▸ List.mem_cons_of_mem _ h1)

theorem splitOnNl_no_newline_eq (l : List Char) (h : '\n' ∉ l) :
    splitOnNl l = [l] := by
  induction l with
  | nil => rfl
  | cons c t ih =>
    have hc : c ≠ '\n' := fun hh => h (hh ▸ List.mem_cons_self _ _)
    have ht : '\n' ∉ t := fun hh => h (List.mem_cons_of_mem _ hh)
    unfold splitOnNl
    rw [if_neg hc, ih ht]

theorem splitOnNl_append (r : List Char) : ∀ (l : List Char), '\n' ∉ l →
    splitOnNl (l ++ '\n' :: r) = l :: splitOnNl r := by
  intro l
  induction l with
  | nil =>
    intro _
    rfl
  | cons c t ih =>
    intro h
    have hc : c ≠ '\n' := fun hh => h (hh ▸ List.mem_cons_self _ _)
    have ht : '\n' ∉ t := fun hh => h (List.mem_cons_of_mem _ hh)
    show splitOnNl (c :: (t ++ '\n' :: r)) = (c :: t) :: splitOnNl r
    rw [show splitOnNl (c :: (t ++ '\n' :: r)) =
        (if c = '\n' then [] :: splitOnNl (t ++ '\n' :: r)
         else match splitOnNl (t ++ '\n' :: r) with
           | [] => [[c]]
           | l :: ls => (c :: l) :: ls) from rfl,
      if_neg hc, ih ht]

theorem splitOnNl_joinNl : ∀ (cl : List (List Char)), cl ≠ [] →
    (∀ l ∈ cl, '\n' ∉ l) → splitOnNl (joinNl cl) = cl := by
  intro cl
  induction cl with
  | nil =>
    intro h _
    exact absurd rfl h
  | cons l rest ih =>
    intro _ hnl
    cases rest with
    | nil =>
      show splitOnNl l = [l]
      exact splitOnNl_no_newline_eq l (hnl l (List.mem_cons_self _ _))
    | cons l2 ls =>
      show splitOnNl (l ++ '\n' :: joinNl (l2 :: ls)) = l :: l2 :: ls
      rw [splitOnNl_append _ _ (hnl l (List.mem_cons_self _ _))]
      rw [ih (by intro hh; cases hh) (fun x hx => hnl x (List.mem_cons_of_mem _ hx))]

theorem joinNl_head (cl : List (List Char)) (l : List Char) (rest : List (List Char))
    (hcl : cl = l :: rest) (hne : l ≠ []) : (joinNl cl).head? = l.head? := by
  subst hcl
  cases rest with
  | nil => rfl
  | cons l2 ls =>
    show (l ++ '\n' :: joinNl (l2 :: ls)).head? = l.head?
    cases l with
    | nil => exact absurd rfl hne
    | cons a t => rfl

theorem joinNl_getLast : ∀ (cl : List (List Char)) (x : List Char),
    cl.getLast? = some x → (∀ y ∈ cl, y ≠ []) →
    (joinNl cl).getLast? = x.getLast? := by
  intro cl
  induction cl with
  | nil =>
    intro x h _
    cases h
  | cons l rest ih =>
    intro x h hne
    cases rest with
    | nil =>
      rw [List.getLast?_singleton] at h
      cases h
      rfl
    | cons l2 ls =>
      rw [List.getLast?_cons_cons] at h
      show (l ++ '\n' :: joinNl (l2 :: ls)).getLast? = x.getLast?
      rw [List.getLast?_append_of_ne_nil _ (by intro hh; cases hh)]
      have hjoin : (joinNl (l2 :: ls)) ≠ [] := by
        have hh := joinNl_head (l2 :: ls) l2 ls rfl
          (hne l2 (List.mem_cons_of_mem _ (List.mem_cons_self _ _)))
        intro hz
        rw [hz] at hh
        cases hl2 : l2 with
        | nil =>
          exact hne l2 (List.mem_cons_of_mem _ (List.mem_cons_self _ _)) hl2
        | cons a t =>
          rw [hl2] at hh
          cases hh
      have := ih x h (fun y hy => hne y (List.mem_cons_of_mem _ hy))
      rw [← this]
      cases hj : joinNl (l2 :: ls) with
      | nil => exact absurd hj hjoin
      | cons a t => rw [List.getLast?_cons_cons]

theorem addVitals_content (s : SectionD) : (addVitals s).content = s.content := by
  unfold addVitals
  by_cases h : s.stype = "objective".data
  · by_cases h2 : (extract_vitals_from_text s.content).nonempty <;> simp [h, h2]
  · simp [h]

theorem flushSection_content (sections : List SectionD) (cur : Option (List Char))
    (content : List (List Char))
    (hc : ∀ l ∈ content, GoodLine l)
    (hs : ∀ s ∈ sections, s.content ≠ [] ∧ ∀ l ∈ splitOnNl s.content, GoodLine l) :
    ∀ s ∈ flushSection sections cur content,
      s.content ≠ [] ∧ ∀ l ∈ splitOnNl s.content, GoodLine l := by
  unfold flushSection
  cases cur with
  | none => exact hs
  | some st =>
    by_cases he : content.isEmpty
    · simp only [he, if_true]
      exact hs
    · simp only [he, Bool.false_eq_true, if_false]
      intro s hmem
      rcases List.mem_append.mp hmem with h1 | h1
      · exact hs s h1
      · rw [List.mem_singleton.mp h1]
        have hcne : content ≠ [] := by
          intro hz
          rw [hz] at he
          exact he rfl
        obtain ⟨l0, rest, hcl⟩ : ∃ l0 rest, content = l0 :: rest := by
          cases content with
          | nil => exact absurd rfl hcne
          | cons a t => exact ⟨a, t, rfl⟩
        have hl0 : GoodLine l0 := hc l0 (hcl ▸ List.mem_cons_self _ _)
        obtain ⟨xl, hxl⟩ : ∃ xl, content.getLast? = some xl := by
          cases hg : content.getLast? with
          | none => rw [List.getLast?_eq_none_iff] at hg; exact absurd hg hcne
          | some y => exact ⟨y, rfl⟩
        have hxmem : xl ∈ content := by
          obtain ⟨hne2, hxeq⟩ :=
            List.mem_getLast?_eq_getLast (Option.mem_def.mpr hxl)
          rw [hxeq]
          exact List.getLast_mem hne2
        have hxg : GoodLine xl := hc xl hxmem
        have hfix : pyStrip (joinNl content) = joinNl content := by
          apply pyStrip_eq_self
          · intro c hcc
            rw [joinNl_head content l0 rest hcl hl0.2.1] at hcc
            exact hl0.2.2.2.1 c hcc
          · intro c hcc
            rw [joinNl_getLast content xl hxl (fun y hy => (hc y hy).2.1)] at hcc
            exact hxg.2.2.2.2 c hcc
        have hsplit : splitOnNl (joinNl content) = content :=
          splitOnNl_joinNl content hcne (fun l hl => (hc l hl).2.2.1)
        dsimp only
        rw [hfix, hsplit]
        constructor
        · intro hz
          have hh := joinNl_head content l0 rest hcl hl0.2.1
          rw [hz] at hh
          cases hl0c : l0 with
          | nil => exact hl0.2.1 hl0c
          | cons a t =>
            rw [hl0c] at hh
            cases hh
        · exact hc

theorem parseLines_content (lines : List (List Char)) :
    ∀ (sections : List SectionD) (cur : Option (List Char))
      (content : List (List Char)),
    (∀ l ∈ lines, '\n' ∉ l) →
    (∀ l ∈ content, GoodLine l) →
    (∀ s ∈ sections, s.content ≠ [] ∧ ∀ l ∈ splitOnNl s.content, GoodLine l) →
    ∀ s ∈ parseLines lines sections cur content,
      s.content ≠ [] ∧ ∀ l ∈ splitOnNl s.content, GoodLine l := by
  induction lines with
  | nil =>
    intro sections cur content _ hc hs
    exact flushSection_content sections cur content hc hs
  | cons l rest ih =>
    intro sections cur content hnl hc hs
    have hnlr : ∀ x ∈ rest, '\n' ∉ x := fun x hx => hnl x (List.mem_cons_of_mem _ hx)
    have hnll : '\n' ∉ l := hnl l (List.mem_cons_self _ _)
    rw [parseLines_cons]
    by_cases he : (pyStrip l).isEmpty
    · simp only [he, if_true]
      exact ih _ _ _ hnlr hc hs
    · simp only [he, Bool.false_eq_true, if_false]
      cases hh : headerType (pyStrip l) with
      | some st =>
        exact ih _ _ _ hnlr (by intro x hx; cases hx)
          (flushSection_content sections cur content hc hs)
      | none =>
        cases cur with
        | some c0 =>
          refine ih _ _ _ hnlr ?_ hs
          intro x hx
          rcases List.mem_append.mp hx with h1 | h1
          · exact hc x h1
          · rw [List.mem_singleton.mp h1]
            refine ⟨hh, ?_, ?_, ?_, ?_⟩
            · intro hz
              rw [hz] at he
              exact he rfl
            · intro hmemnl
              exact hnll (mem_pyStrip l _ hmemnl)
            · exact pyStrip_head l
            · exact pyStrip_getLast l
        | none =>
          exact ih _ _ _ hnlr hc hs

/-- C10: in the fallback text parser a line containing a header alias as a
case-insensitive substring anywhere is consumed as a header, so no such line
— including the content following the alias on the same line — ever appears
among the lines of any emitted section's content, and a section whose
accumulated content is empty is omitted from the output entirely. -/
theorem fallback_header_lines_excluded (resp : List Char) (sec : SectionD)
    (hmem : sec ∈ (parse_structured_text_response resp).sections) :
    sec.content ≠ [] ∧
    ∀ l ∈ splitOnNl sec.content, isHeaderLine l = false ∧ l ≠ [] := by
  have hmem2 : sec ∈ (parseLines (splitOnNl resp) [] none []).map addVitals := hmem
  obtain ⟨s0, hs0, rfl⟩ := List.mem_map.mp hmem2
  have h := parseLines_content (splitOnNl resp) [] none []
    (splitOnNl_no_newline resp) (by intro x hx; cases hx) (by intro x hx; cases hx)
    s0 hs0
  rw [addVitals_content]
  refine ⟨h.1, fun l hl => ⟨?_, (h.2 l hl).2.1⟩⟩
  unfold isHeaderLine
  rw [(h.2 l hl).1]
  rfl

theorem fallback_header_lines_excluded_witness :
    c2fallbackSec.content ≠ [] ∧
    ∀ l ∈ splitOnNl c2fallbackSec.content, isHeaderLine l = false ∧ l ≠ [] :=
  fallback_header_lines_excluded "O:\nhr 99".data c2fallbackSec (by decide)

/-- With the live template binding — `TemplateService` has no `get_template`
attribute, so the call at `soap_generation_service.py:45` raises — the
assembler always returns the AttributeError text with the database
untouched, no matter the job, patient or backend response. -/
theorem generate_live_template_always_errs (ai : AiOutcome) (jid pid uid : Nat)
    (tty today : List Char) (db : DB) (job : TJobRow) (pet : PetRow)
    (hjob : db.jobs.find? (fun j => j.id = jid) = some job)
    (hstatus : job.status = TStatus.completed)
    (hpet : db.pets.find? (fun p => p.id = pid) = some pet) :
    generate_soap_from_transcription liveTemplateOutcome ai jid pid uid tty today db =
      (.err "AttributeError: TemplateService object has no attribute get_template".data,
       db) := by
  unfold generate_soap_from_transcription liveTemplateOutcome
  simp only [hjob, hstatus, hpet, ne_eq, eq_self_iff_true, not_true_eq_false,
    if_false, ite_false]

end Pawscribed
